import Mathlib

/-!
Verification of the per-agent decision engine of the `etherfi-strategy-arena`
repository. The repository holds several iterations of the same
`StrategyAgent` module; the ones the claims cite are embedded separately and
named by their file:

* `src/unnamed/part_004` (header comment `lib/agents/strategy-agent.ts`):
  the numeric-scoring agent with `DailyTokenBucket`, `safeParseClaudeJson`,
  `claudeValidatePick` and `decide`.  Embedded with the `P4` prefix.
* `src/unnamed/part_005`: the hybrid agent with a portfolio ledger
  (`makeDecision`, `filterByConstraints`, `executeDecision`).  Embedded with
  the `P5` prefix.
* `src/unnamed/part_006`: the earlier prompt-driven agent with the same
  ledger (`makeDecision`, `parseDecision`, `executeDecision`).  Embedded with
  the `P6` prefix.

JavaScript numbers are embedded as `ℚ` (the claims under study are about
exact algebraic relations, not floating-point rounding), strings as `String`,
`undefined`-able fields as `Option`.  Network calls (the strategy catalog
fetch and the Anthropic API) are external collaborators: each embedded entry
point takes their outcome as an explicit `Except`/`Bool` parameter, `.error`
standing for a thrown exception, and the claims are settled for every such
outcome.
-/

namespace Arena

/-- Risk tiers as in `src/unnamed/part_001` (`RiskLevel`), ordered
LOW < MEDIUM < HIGH < EXTREME. -/
inductive RiskLevel
  | LOW
  | MEDIUM
  | HIGH
  | EXTREME
deriving DecidableEq

/-- `riskOrder.indexOf` of part_005/part_006: the index of a tier in
`["LOW", "MEDIUM", "HIGH", "EXTREME"]`. -/
def riskIdx : RiskLevel → ℕ
  | .LOW => 0
  | .MEDIUM => 1
  | .HIGH => 2
  | .EXTREME => 3

/-- `riskRank` of part_004 (same values, used in signed arithmetic there; the
source's `default: return 2` arm is unreachable for a well-typed tier). -/
def riskRank (r : RiskLevel) : ℤ :=
  match r with
  | .LOW => 0
  | .MEDIUM => 1
  | .HIGH => 2
  | .EXTREME => 3

/-- The fields of `MarketData` (src/lib/types.ts) that the decision engine
reads: `day`, `gasPrice`, `trend`, `sentiment`.  The unused presentation
fields (`date`, `apy`, `tvl`) are omitted. -/
structure MarketData where
  day : ℚ
  gasPrice : ℚ
  trend : String
  sentiment : String
deriving DecidableEq

/-- `StrategyOption` of `src/unnamed/part_001` (lib/api/strategy-finder.ts). -/
structure StrategyOption where
  name : String
  description : String
  expectedAPY : ℚ
  protocols : List String
  networks : List String
  risk : RiskLevel
  steps : List String
deriving DecidableEq

/-- `Transaction` of src/lib/types.ts. -/
structure Transaction where
  day : ℚ
  action : String
  reasoning : String
  portfolioBefore : ℚ
  portfolioAfter : ℚ
  gasCost : ℚ
deriving DecidableEq

/-- The `Decision` record as built and consumed by part_005/part_006
(types.ts leaves all fields but `reasoning` optional; `risk` and
`confidence` never influence the ledger). -/
structure Decision where
  strategy : Option String
  action : Option String
  reasoning : String
  expectedAPY : Option ℚ
  protocols : Option (List String)
  risk : Option String
  confidence : Option ℚ
deriving DecidableEq

/-- `AgentConstraints` of part_005 (part_006's version has the same six core
fields and no display overrides; the display fields are `Option` here). -/
structure AgentConstraints where
  maxLeverage : ℚ
  allowedChains : List String
  riskTolerance : RiskLevel
  minGasPrice : ℚ
  maxGasPrice : ℚ
  preferredProtocols : List String
  displayName : Option String
  emoji : Option String
  color : Option String
deriving DecidableEq

/-- The mutable fields of the part_005/part_006 `StrategyAgent` classes that
the decision and ledger logic reads or writes.  The purely presentational
fields (`emoji`, `color`, `personality` prompt) are omitted: no embedded code
path reads them.  part_005's private `bias` is a pure function of the final
`name`, recomputed by `P5.biasOf` where needed. -/
structure AgentState where
  name : String
  portfolio : ℚ
  transactions : List Transaction
  currentStrategy : String
  currentAPY : ℚ
  constraints : Option AgentConstraints
deriving DecidableEq

/-- JavaScript `v || dflt` on an optional string: `undefined` and the empty
string are falsy. -/
def jsOrStr (v : Option String) (dflt : String) : String :=
  match v with
  | some s => if s = "" then dflt else s
  | none => dflt

/-- JavaScript `v || dflt` on an optional number: `undefined` and `0` are
falsy (`ℚ` has no NaN). -/
def jsOrNum (v : Option ℚ) (dflt : ℚ) : ℚ :=
  match v with
  | some a => if a = 0 then dflt else a
  | none => dflt

/-- JavaScript-style whitespace test covering the characters `String.trim`
and `\s` treat as whitespace (the common ones: space, tab, LF, CR, VT, FF,
NBSP, BOM). -/
def jsWhitespace (c : Char) : Bool :=
  c == ' ' || c == '\t' || c == '\n' || c == '\r' ||
  c.toNat == 11 || c.toNat == 12 || c.toNat == 160 || c.toNat == 65279

/-- `String.prototype.trim` on a character list. -/
def jsTrimList (cs : List Char) : List Char :=
  ((cs.dropWhile jsWhitespace).reverse.dropWhile jsWhitespace).reverse

/-- `String.prototype.trim`. -/
def jsTrim (s : String) : String :=
  String.mk (jsTrimList s.toList)

/-- `normalize` of part_004/part_005: `s.trim().toLowerCase()` (ASCII
lowering). -/
def normalize (s : String) : String :=
  (jsTrim s).toLower

/-- The string form of a risk tier, as the TS string-literal union spells
it. -/
def riskName : RiskLevel → String
  | .LOW => "LOW"
  | .MEDIUM => "MEDIUM"
  | .HIGH => "HIGH"
  | .EXTREME => "EXTREME"

/-- `cs` starts with `pat`. -/
def listStartsWith : List Char → List Char → Bool
  | _, [] => true
  | [], _ :: _ => false
  | c :: cs, p :: ps => c == p && listStartsWith cs ps

/-- `pat` occurs contiguously in `cs` (the effect of a fixed-word regex
test such as `/rate_limit/`). -/
def listHasSub (pat : List Char) : List Char → Bool
  | [] => pat.isEmpty
  | c :: rest => listStartsWith (c :: rest) pat || listHasSub pat rest

/-- Case-insensitive fixed-substring test (`/.../i`), via ASCII lowering. -/
def strHasSubCI (s pat : String) : Bool :=
  listHasSub pat.toLower.toList s.toLower.toList

/-- Index of the first occurrence of `c` in `cs` (`String.indexOf`). -/
def firstIdxOf? (c : Char) : List Char → Option ℕ
  | [] => none
  | x :: rest => if x == c then some 0 else (firstIdxOf? c rest).map (· + 1)

/-- Index of the last occurrence of `c` in `cs` (`String.lastIndexOf`). -/
def lastIdxOf? (cs : List Char) (c : Char) : Option ℕ :=
  (firstIdxOf? c cs.reverse).map (fun k => cs.length - 1 - k)

/-- Insert `x` into a list already sorted to descending `key`, after every
element whose key is at least `key x` (so insertion in original order is
stable). -/
def insertDescBy {α : Type} (key : α → ℚ) (x : α) : List α → List α
  | [] => [x]
  | y :: ys => if key y < key x then x :: y :: ys else y :: insertDescBy key x ys

/-- Stable sort to descending `key`, the effect of V8's stable
`Array.prototype.sort` under the comparator `(a, b) => key b - key a`. -/
def sortDescBy {α : Type} (key : α → ℚ) (l : List α) : List α :=
  l.foldl (fun acc x => insertDescBy key x acc) []

namespace Js

/-- The values `JSON.parse` can produce. -/
inductive Json
  | null
  | bool (b : Bool)
  | num (q : ℚ)
  | str (s : String)
  | arr (elems : List Json)
  | obj (members : List (String × Json))

/-- The four characters the JSON grammar treats as whitespace. -/
def jsonWs (c : Char) : Bool :=
  c == ' ' || c == '\t' || c == '\n' || c == '\r'

/-- Drop leading JSON whitespace. -/
def skipWs (cs : List Char) : List Char :=
  cs.dropWhile jsonWs

/-- Hex digit value, if any. -/
def hexVal? (c : Char) : Option ℕ :=
  if 48 ≤ c.toNat ∧ c.toNat ≤ 57 then some (c.toNat - 48)
  else if 97 ≤ c.toNat ∧ c.toNat ≤ 102 then some (c.toNat - 87)
  else if 65 ≤ c.toNat ∧ c.toNat ≤ 70 then some (c.toNat - 55)
  else none

/-- Parse the body of a JSON string (the opening quote already consumed):
strict escapes, raw control characters rejected.  Returns the decoded
characters and the remainder after the closing quote. -/
def parseStrChars : ℕ → List Char → Option (List Char × List Char)
  | 0, _ => none
  | _, [] => none
  | fuel + 1, c :: rest =>
    if c == '"' then some ([], rest)
    else if c == '\\' then
      match rest with
      | [] => none
      | e :: rest2 =>
        if e == '"' then (parseStrChars fuel rest2).map (fun p => ('"' :: p.1, p.2))
        else if e == '\\' then (parseStrChars fuel rest2).map (fun p => ('\\' :: p.1, p.2))
        else if e == '/' then (parseStrChars fuel rest2).map (fun p => ('/' :: p.1, p.2))
        else if e == 'b' then
          (parseStrChars fuel rest2).map (fun p => (Char.ofNat 8 :: p.1, p.2))
        else if e == 'f' then
          (parseStrChars fuel rest2).map (fun p => (Char.ofNat 12 :: p.1, p.2))
        else if e == 'n' then (parseStrChars fuel rest2).map (fun p => ('\n' :: p.1, p.2))
        else if e == 'r' then (parseStrChars fuel rest2).map (fun p => ('\r' :: p.1, p.2))
        else if e == 't' then (parseStrChars fuel rest2).map (fun p => ('\t' :: p.1, p.2))
        else if e == 'u' then
          match rest2 with
          | h1 :: h2 :: h3 :: h4 :: rest3 =>
            match hexVal? h1, hexVal? h2, hexVal? h3, hexVal? h4 with
            | some a, some b, some c2, some d =>
              (parseStrChars fuel rest3).map
                (fun p => (Char.ofNat (a * 4096 + b * 256 + c2 * 16 + d) :: p.1, p.2))
            | _, _, _, _ => none
          | _ => none
        else none
    else if c.toNat < 32 then none
    else (parseStrChars fuel rest).map (fun p => (c :: p.1, p.2))

/-- Numeric value of a digit run. -/
def digitsVal (ds : List Char) : ℕ :=
  ds.foldl (fun a c => a * 10 + (c.toNat - 48)) 0

/-- Parse a JSON number (strict grammar: optional minus, no leading zeros,
optional fraction and exponent) into an exact rational. -/
def parseNumber (cs : List Char) : Option (ℚ × List Char) :=
  let signed : Bool × List Char :=
    match cs with
    | '-' :: rest => (true, rest)
    | _ => (false, cs)
  let neg := signed.1
  let cs1 := signed.2
  let intDigits := cs1.takeWhile Char.isDigit
  let rest1 := cs1.dropWhile Char.isDigit
  match intDigits with
  | [] => none
  | d :: ds =>
    if d == '0' ∧ ds ≠ [] then none
    else
      let fracParsed : Option (ℕ × ℕ × List Char) :=
        match rest1 with
        | '.' :: fr =>
          let fd := fr.takeWhile Char.isDigit
          if fd = [] then none
          else some (digitsVal fd, fd.length, fr.dropWhile Char.isDigit)
        | _ => some (0, 0, rest1)
      match fracParsed with
      | none => none
      | some (fracVal, fracLen, rest2) =>
        let expParsed : Option (ℤ × List Char) :=
          match rest2 with
          | e :: er =>
            if e == 'e' ∨ e == 'E' then
              let esigned : Bool × List Char :=
                match er with
                | '+' :: t => (false, t)
                | '-' :: t => (true, t)
                | _ => (false, er)
              let ed := esigned.2.takeWhile Char.isDigit
              if ed = [] then none
              else
                some ((if esigned.1 then -(digitsVal ed : ℤ) else (digitsVal ed : ℤ)),
                  esigned.2.dropWhile Char.isDigit)
            else some (0, rest2)
          | [] => some (0, [])
        match expParsed with
        | none => none
        | some (ex, rest3) =>
          let mag : ℚ :=
            ((digitsVal intDigits : ℚ) + (fracVal : ℚ) / (10 : ℚ) ^ fracLen) * (10 : ℚ) ^ ex
          some ((if neg then -mag else mag), rest3)

mutual

/-- Parse one JSON value (leading whitespace allowed), fuel-bounded. -/
def parseVal : ℕ → List Char → Option (Json × List Char)
  | 0, _ => none
  | fuel + 1, cs0 =>
    match skipWs cs0 with
    | [] => none
    | 't' :: 'r' :: 'u' :: 'e' :: rest => some (.bool true, rest)
    | 'f' :: 'a' :: 'l' :: 's' :: 'e' :: rest => some (.bool false, rest)
    | 'n' :: 'u' :: 'l' :: 'l' :: rest => some (.null, rest)
    | c :: rest =>
      if c == '"' then
        (parseStrChars fuel rest).map (fun p => (.str (String.mk p.1), p.2))
      else if c == '[' then
        match skipWs rest with
        | c2 :: r2 =>
          if c2 == ']' then some (.arr [], r2)
          else (parseArrLoop fuel (c2 :: r2)).map (fun p => (.arr p.1, p.2))
        | [] => none
      else if c == '{' then
        match skipWs rest with
        | c2 :: r2 =>
          if c2 == '}' then some (.obj [], r2)
          else (parseObjLoop fuel (c2 :: r2)).map (fun p => (.obj p.1, p.2))
        | [] => none
      else (parseNumber (c :: rest)).map (fun p => (.num p.1, p.2))

/-- Parse the non-empty tail of a JSON array: one value, then `,` more or
`]`. -/
def parseArrLoop : ℕ → List Char → Option (List Json × List Char)
  | 0, _ => none
  | fuel + 1, cs =>
    match parseVal fuel cs with
    | none => none
    | some (v, r) =>
      match skipWs r with
      | c :: r2 =>
        if c == ',' then (parseArrLoop fuel r2).map (fun p => (v :: p.1, p.2))
        else if c == ']' then some ([v], r2)
        else none
      | [] => none

/-- Parse the non-empty tail of a JSON object: `"key" : value`, then `,`
more or `}`. -/
def parseObjLoop : ℕ → List Char → Option (List (String × Json) × List Char)
  | 0, _ => none
  | fuel + 1, cs =>
    match skipWs cs with
    | c :: r =>
      if c == '"' then
        match parseStrChars fuel r with
        | some (k, r1) =>
          match skipWs r1 with
          | c2 :: r2 =>
            if c2 == ':' then
              match parseVal fuel r2 with
              | some (v, r3) =>
                match skipWs r3 with
                | c3 :: r4 =>
                  if c3 == ',' then
                    (parseObjLoop fuel r4).map (fun p => ((String.mk k, v) :: p.1, p.2))
                  else if c3 == '}' then some ([(String.mk k, v)], r4)
                  else none
                | [] => none
              | none => none
            else none
          | [] => none
        | none => none
      else none
    | [] => none

end

/-- `JSON.parse`: parse one value and require only whitespace after it.
The fuel is generous: every recursive layer follows at least one consumed
character. -/
def parse (s : String) : Option Json :=
  match parseVal (4 * s.length + 16) s.toList with
  | some (v, rest) => if skipWs rest = [] then some v else none
  | none => none

/-- Member lookup on a parsed object: with duplicate keys the last one wins,
as assignment order does in a JS object literal. -/
def objGet (members : List (String × Json)) (key : String) : Option Json :=
  (members.reverse.find? (fun m => m.1 == key)).map Prod.snd

/-- `value.field` member access: defined on objects only (`undefined`
elsewhere; the embedded call sites only reach it on objects). -/
def getField : Json → String → Option Json
  | .obj ms, k => objGet ms k
  | _, _ => none

/-- JS truthiness of a parsed JSON value (`ℚ` has no NaN). -/
def jsTruthy : Json → Bool
  | .null => false
  | .bool b => b
  | .num q => decide (q ≠ 0)
  | .str s => decide (s ≠ "")
  | .arr _ => true
  | .obj _ => true

/-- The field's value when it is a JSON string (non-string truthy values
would flow through untouched in the untyped source; the claims never reach
that corner and it is folded into the fallback here). -/
def strField (j : Json) (k : String) : Option String :=
  match getField j k with
  | some (.str s) => some s
  | _ => none

/-- The field's value when it is a JSON number. -/
def numField (j : Json) (k : String) : Option ℚ :=
  match getField j k with
  | some (.num q) => some q
  | _ => none

/-- All elements of a JSON array as strings, when they all are strings. -/
def strElems? (xs : List Json) : Option (List String) :=
  xs.mapM (fun j => match j with | .str s => some s | _ => none)

end Js

namespace P5

/-- `BASE_WEETH_APY` (part_005 line 58, env default 3.0). -/
def BASE_WEETH_APY : ℚ := 3

/-- `GAS_PENALTY_PER_GWEI` (part_005 line 59, env default 0.02). -/
def GAS_PENALTY_PER_GWEI : ℚ := 2 / 100

/-- `RISK_PENALTY` table (part_005 line 60). -/
def RISK_PENALTY : RiskLevel → ℚ
  | .LOW => 0
  | .MEDIUM => 2
  | .HIGH => 5
  | .EXTREME => 8

/-- part_005 constructor: portfolio 10, no transactions, strategy
"Simple weETH Holding" at the base APY; a truthy `constraints.displayName`
overrides the configured name. -/
def mkAgent (name : String) (constraints : Option AgentConstraints) : AgentState :=
  { name := jsOrStr (constraints.bind AgentConstraints.displayName) name
    portfolio := 10
    transactions := []
    currentStrategy := "Simple weETH Holding"
    currentAPY := BASE_WEETH_APY
    constraints := constraints }

/-- part_005's deterministic tiebreaker: sum of the name's char codes mod 7,
times 0.1 (UTF-16 code units agree with code points on the ASCII/BMP names
the repo uses). -/
def biasOf (name : String) : ℚ :=
  (((name.toList.map Char.toNat).sum % 7 : ℕ) : ℚ) * (1 / 10)

/-- `executeDecision` of part_005 (lines 299-331): resolve the strategy and
APY with JS falsy/typeof fallbacks, debit gas when the strategy changes,
credit one day of yield on the post-debit balance, append the transaction and
update the current strategy/APY. -/
def executeDecision (st : AgentState) (decision : Decision) (marketData : MarketData) :
    AgentState :=
  let newStrategy := jsOrStr decision.strategy st.currentStrategy
  let newAPY := decision.expectedAPY.getD st.currentAPY
  let gasCost := if newStrategy ≠ st.currentStrategy
    then marketData.gasPrice / 1000 * (3 / 1000) else 0
  let afterGas := st.portfolio - gasCost
  let newPortfolio := afterGas + afterGas * newAPY / 100 / 365
  let tx : Transaction :=
    { day := marketData.day
      action := newStrategy
      reasoning := jsOrStr (some decision.reasoning) "No reasoning provided"
      portfolioBefore := st.portfolio
      portfolioAfter := newPortfolio
      gasCost := gasCost }
  { st with
    portfolio := newPortfolio
    transactions := st.transactions ++ [tx]
    currentStrategy := newStrategy
    currentAPY := newAPY }

/-- Ledger steps of part_005 applied in sequence, one per processed day. -/
def processDays (st : AgentState) (steps : List (Decision × MarketData)) : AgentState :=
  steps.foldl (fun s step => executeDecision s step.1 step.2) st

/-- `filterByConstraints` of part_005 (lines 194-213): risk tier at most the
tolerance, network on the allow-list (unless the list is empty), protocol on
the preference list (unless that list is empty). -/
def filterByConstraints (constraints : Option AgentConstraints)
    (strategies : List StrategyOption) : List StrategyOption :=
  match constraints with
  | none => strategies
  | some c =>
    let maxIdx := riskIdx c.riskTolerance
    strategies.filter fun s =>
      decide (riskIdx s.risk ≤ maxIdx) &&
      (c.allowedChains.isEmpty ||
        s.networks.any fun n => c.allowedChains.contains n.toLower) &&
      (c.preferredProtocols.isEmpty ||
        s.protocols.any fun p => c.preferredProtocols.contains p)

/-- `numericScore` of part_005 (lines 216-220); `bias` is the agent's stored
name-derived tiebreaker. -/
def numericScore (bias : ℚ) (s : StrategyOption) (gasGwei : ℚ) : ℚ :=
  s.expectedAPY - gasGwei * GAS_PENALTY_PER_GWEI - RISK_PENALTY s.risk + bias

/-- `adjustForGas` of part_005 (lines 223-227): gas-penalised APY floored at
0, falling back to the current APY when the argument is not a number. -/
def adjustForGas (currentAPY : ℚ) (apy : Option ℚ) (gasGwei : ℚ) : ℚ :=
  max 0 (apy.getD currentAPY - gasGwei * GAS_PENALTY_PER_GWEI)

/-- `fallbackStrategy` of part_005 (lines 286-296). -/
def fallbackStrategy : StrategyOption :=
  { name := "Simple weETH Holding"
    description := "Hold weETH and earn base staking rewards"
    expectedAPY := BASE_WEETH_APY
    protocols := ["EtherFi"]
    networks := ["ethereum"]
    risk := .LOW
    steps := ["Stake ETH on EtherFi", "Receive weETH", "Earn ~3.0% APY"] }

/-- The `Scored` triple of part_005's `makeDecision` (line 135-139). -/
structure Scored where
  s : StrategyOption
  score : ℚ
  adjAPY : ℚ
deriving DecidableEq

/-- `scored.sort((a, b) => b.score - a.score)` of part_005 line 140: a stable
sort to descending score (V8's `Array.prototype.sort` is stable). -/
def sortByScoreDesc (l : List Scored) : List Scored :=
  sortDescBy Scored.score l

/-- The outcome of part_005's `askClaudeToChoose` (lines 230-283) as seen by
`makeDecision`: the API call either throws (any exception, including a pick
whose `strategyName` is not a string, which makes the subsequent
`normalize` call throw) or yields a pick with a string name, an optional
numeric APY and an optional reasoning string. -/
structure ClaudePick where
  strategyName : String
  expectedAPY : Option ℚ
  reasoning : Option String
deriving DecidableEq

/-- `makeDecision` of part_005 (lines 107-191).  `catalog` is the outcome of
`findAllStrategies()` (`.error` = the fetch threw, landing in the outer
catch), `limiterGrant` the result of `globalLimiter.take()`, and
`claudeStep` the outcome of the guarded `askClaudeToChoose` call.  Returns
the decision and the post-`executeDecision` state; every path runs
`executeDecision` exactly once. -/
def makeDecision (st : AgentState) (marketData : MarketData)
    (catalog : Except Unit (List StrategyOption)) (limiterGrant : Bool)
    (claudeStep : Except Unit ClaudePick) : Decision × AgentState :=
  let gateHold : Option Decision :=
    match st.constraints with
    | some c =>
      if marketData.gasPrice < c.minGasPrice ∨ marketData.gasPrice > c.maxGasPrice then
        some { strategy := some st.currentStrategy
               action := some st.currentStrategy
               reasoning := "Holding: gas " ++ toString marketData.gasPrice ++
                 " gwei outside range " ++ toString c.minGasPrice ++ "-" ++
                 toString c.maxGasPrice ++ "."
               expectedAPY := some st.currentAPY
               protocols := none
               risk := some (riskName c.riskTolerance)
               confidence := none }
      else none
    | none => none
  match gateHold with
  | some hold => (hold, executeDecision st hold marketData)
  | none =>
    match catalog with
    | .error _ =>
      let fallback : Decision :=
        { strategy := some st.currentStrategy
          action := some st.currentStrategy
          reasoning := "API error, maintaining current position"
          expectedAPY := some st.currentAPY
          protocols := none
          risk := none
          confidence := none }
      (fallback, executeDecision st fallback marketData)
    | .ok topStrategies =>
      let eligible := filterByConstraints st.constraints topStrategies
      let scored := sortByScoreDesc (eligible.map fun s =>
        { s := s
          score := numericScore (biasOf st.name) s marketData.gasPrice
          adjAPY := adjustForGas st.currentAPY (some s.expectedAPY) marketData.gasPrice })
      let top := scored.take 5
      let bestNumeric : Scored :=
        match top with
        | t :: _ => t
        | [] => { s := fallbackStrategy, score := -(10 ^ 9), adjAPY := st.currentAPY }
      let chosen0 := bestNumeric.s
      let chosenAPY0 := bestNumeric.adjAPY
      let chosenReason0 := "Selected by numeric score respecting constraints (" ++
        riskName (match st.constraints with | some c => c.riskTolerance | none => .MEDIUM) ++
        " risk)."
      let resolved : StrategyOption × ℚ × String :=
        if limiterGrant then
          match claudeStep with
          | .ok pick =>
            match top.find? (fun t => normalize t.s.name == normalize pick.strategyName) with
            | some matched =>
              (matched.s,
               adjustForGas st.currentAPY (some (pick.expectedAPY.getD matched.s.expectedAPY))
                 marketData.gasPrice,
               pick.reasoning.getD "Chosen by Claude reasoning.")
            | none =>
              if pick.strategyName ≠ "" then
                (chosen0, chosenAPY0, pick.reasoning.getD chosenReason0)
              else (chosen0, chosenAPY0, chosenReason0)
          | .error _ => (chosen0, chosenAPY0, chosenReason0)
        else (chosen0, chosenAPY0, chosenReason0)
      let decision : Decision :=
        { strategy := some resolved.1.name
          action := some resolved.1.name
          reasoning := resolved.2.2
          expectedAPY := some resolved.2.1
          protocols := some resolved.1.protocols
          risk := some (riskName resolved.1.risk)
          confidence := some 8 }
      (decision, executeDecision st decision marketData)

end P5

namespace P6

/-- part_006 constructor: portfolio 10, no transactions, strategy
"Simple weETH Holding" at APY 3.0. -/
def mkAgent (name : String) (constraints : Option AgentConstraints) : AgentState :=
  { name := name
    portfolio := 10
    transactions := []
    currentStrategy := "Simple weETH Holding"
    currentAPY := 3
    constraints := constraints }

/-- `executeDecision` of part_006 (lines 226-254): same ledger as part_005's
except that the APY falls back through JS `||`, so an expectedAPY of `0` is
falsy and the current APY is used instead. -/
def executeDecision (st : AgentState) (decision : Decision) (marketData : MarketData) :
    AgentState :=
  let newStrategy := jsOrStr decision.strategy st.currentStrategy
  let newAPY := jsOrNum decision.expectedAPY st.currentAPY
  let gasCost := if newStrategy ≠ st.currentStrategy
    then marketData.gasPrice / 1000 * (3 / 1000) else 0
  let afterGas := st.portfolio - gasCost
  let newPortfolio := afterGas + afterGas * newAPY / 100 / 365
  let tx : Transaction :=
    { day := marketData.day
      action := newStrategy
      reasoning := jsOrStr (some decision.reasoning) "No reasoning provided"
      portfolioBefore := st.portfolio
      portfolioAfter := newPortfolio
      gasCost := gasCost }
  { st with
    portfolio := newPortfolio
    transactions := st.transactions ++ [tx]
    currentStrategy := newStrategy
    currentAPY := newAPY }

/-- Ledger steps of part_006 applied in sequence, one per processed day. -/
def processDays (st : AgentState) (steps : List (Decision × MarketData)) : AgentState :=
  steps.foldl (fun s step => executeDecision s step.1 step.2) st

/-- The backtick character (used by the code-fence strippers). -/
def backtick : Char := Char.ofNat 96

/-- The literal scanned by the fence-stripping regexes of part_006's
`parseDecision`: three backticks and `json`. -/
def fenceJsonTok : List Char := [backtick, backtick, backtick, 'j', 's', 'o', 'n']

/-- Three backticks. -/
def fenceTok : List Char := [backtick, backtick, backtick]

/-- `response.replace(/TOK\n?/g, "")`: remove every non-overlapping
left-to-right occurrence of `tok` together with one newline directly after
it.  Fuel-bounded (call with the list's length). -/
def stripToken (tok : List Char) : ℕ → List Char → List Char
  | _, [] => []
  | 0, cs => cs
  | fuel + 1, c :: rest =>
    if tok ≠ [] ∧ listStartsWith (c :: rest) tok then
      match (c :: rest).drop tok.length with
      | '\n' :: a2 => stripToken tok fuel a2
      | after => stripToken tok fuel after
    else c :: stripToken tok fuel rest

/-- `parseDecision` of part_006 (lines 194-224): strip code fences, cut the
`/\{[\s\S]*\}/` match (first `\x7b` to last `\x7d`, which must come after
it), `JSON.parse` it, and read the fields with JS `||` fallbacks; any
parse failure yields the maintain-position decision. -/
def parseDecision (currentStrategy : String) (currentAPY : ℚ) (response : String) :
    Decision :=
  let t0 := jsTrimList response.toList
  let t1 := stripToken fenceJsonTok t0.length t0
  let t2 := stripToken fenceTok t1.length t1
  let clean := jsTrimList t2
  let fallbackDec : Decision :=
    { strategy := some currentStrategy
      action := some currentStrategy
      reasoning := "Unable to parse decision, maintaining position"
      expectedAPY := some currentAPY
      protocols := none
      risk := none
      confidence := none }
  match firstIdxOf? '{' clean, lastIdxOf? clean '}' with
  | some i, some j =>
    if i < j then
      match Js.parse (String.mk ((clean.drop i).take (j + 1 - i))) with
      | some parsed =>
        { strategy := some (jsOrStr (Js.strField parsed "strategyName") currentStrategy)
          action := some (jsOrStr (Js.strField parsed "strategyName") currentStrategy)
          reasoning := jsOrStr (Js.strField parsed "reasoning") "No reasoning provided"
          expectedAPY := some (jsOrNum (Js.numField parsed "expectedAPY") currentAPY)
          protocols := some ((Js.getField parsed "protocols").elim []
            (fun v => match v with | .arr xs => (Js.strElems? xs).getD [] | _ => []))
          risk := some (jsOrStr (Js.strField parsed "risk") "MEDIUM")
          confidence := some (jsOrNum (Js.numField parsed "confidence") 5) }
      | none => fallbackDec
    else fallbackDec
  | _, _ => fallbackDec

/-- The error object thrown by the Anthropic client, as inspected by
part_006's retry logic (`status` plus the message for the
`/rate_limit/i` test). -/
structure JsError where
  status : Option ℤ
  message : String
deriving DecidableEq

/-- The retry condition of part_006 line 174:
`err.status === 429 || /rate_limit/i.test(String(err.message))`. -/
def isRateLimitErr (e : JsError) : Bool :=
  e.status == some 429 || strHasSubCI e.message "rate_limit"

/-- `makeDecision` of part_006 (lines 45-192).  `catalog` is the outcome of
`findAllStrategies()` — its payload feeds only the prompt text, so only the
throw/return distinction matters here; `call1` is the outcome of the first
`client.messages.create` call (the extracted reply text, or the thrown
error), `call2` the outcome of the single retry attempted after a
rate-limit error.  Note the gas-window path returns without touching the
ledger. -/
def makeDecision (st : AgentState) (marketData : MarketData)
    (catalog : Except Unit (List StrategyOption)) (call1 call2 : Except JsError String) :
    Decision × AgentState :=
  let gateHold : Option Decision :=
    match st.constraints with
    | some c =>
      if marketData.gasPrice < c.minGasPrice ∨ marketData.gasPrice > c.maxGasPrice then
        some { strategy := some st.currentStrategy
               action := some st.currentStrategy
               reasoning := "Gas price " ++ toString marketData.gasPrice ++
                 " gwei is outside my allowed range (" ++ toString c.minGasPrice ++
                 "-" ++ toString c.maxGasPrice ++ " gwei)"
               expectedAPY := some st.currentAPY
               protocols := none
               risk := none
               confidence := none }
      else none
    | none => none
  let fallbackDecision : Decision :=
    { strategy := some st.currentStrategy
      action := some st.currentStrategy
      reasoning := "API error, maintaining current position"
      expectedAPY := none
      protocols := none
      risk := none
      confidence := none }
  match gateHold with
  | some hold => (hold, st)
  | none =>
    match catalog with
    | .error _ => (fallbackDecision, executeDecision st fallbackDecision marketData)
    | .ok _ =>
      match call1 with
      | .ok text =>
        let d := parseDecision st.currentStrategy st.currentAPY text
        (d, executeDecision st d marketData)
      | .error e =>
        if isRateLimitErr e then
          match call2 with
          | .ok text =>
            let d := parseDecision st.currentStrategy st.currentAPY text
            (d, executeDecision st d marketData)
          | .error _ => (fallbackDecision, executeDecision st fallbackDecision marketData)
        else (fallbackDecision, executeDecision st fallbackDecision marketData)

end P6

namespace P4

/-- `AgentConstraints` of part_004 (lines 10-23): the soft preference flags
are plain booleans here; a missing optional flag is falsy, i.e. `false`. -/
structure Constraints where
  maxLeverage : ℚ
  allowedChains : List String
  riskTolerance : RiskLevel
  minGasPrice : ℚ
  maxGasPrice : ℚ
  preferredProtocols : List String
  displayName : Option String
  preferEfficiency : Bool
  preferStability : Bool
  preferContrarian : Bool
deriving DecidableEq

/-- The state of a `DailyTokenBucket` (part_004 lines 43-80). -/
structure Bucket where
  capacity : ℤ
  tokens : ℤ
  refillMs : ℤ
  lastRefill : ℤ
  lastDaySeen : Option ℚ
deriving DecidableEq

/-- The `DailyTokenBucket` constructor: full tokens, last refill now, no day
seen.  part_004 constructs exactly one bucket per agent, with
`new DailyTokenBucket(1, 86_400_000)` (line 307). -/
def mkBucket (capacity refillMs now : ℤ) : Bucket :=
  { capacity := capacity
    tokens := capacity
    refillMs := refillMs
    lastRefill := now
    lastDaySeen := none }

/-- `DailyTokenBucket.tryConsume` (part_004 lines 58-79): lazily refill from
wall-clock time (`now` stands for `Date.now()`; floor division as
`Math.floor`), then refill to full capacity whenever a numeric `day`
argument differs from the last day seen (in either direction), then consume
one token if any is left. -/
def tryConsume (st : Bucket) (now : ℤ) (day : Option ℚ) : Bool × Bucket :=
  let refilled :=
    if now - st.lastRefill ≥ st.refillMs then
      let cycles := Int.fdiv (now - st.lastRefill) st.refillMs
      { st with
        tokens := min st.capacity (st.tokens + cycles)
        lastRefill := st.lastRefill + cycles * st.refillMs }
    else st
  let dayReset :=
    match day with
    | some d =>
      match refilled.lastDaySeen with
      | none => { refilled with tokens := refilled.capacity, lastDaySeen := some d }
      | some prev =>
        if d ≠ prev then { refilled with tokens := refilled.capacity, lastDaySeen := some d }
        else refilled
    | none => refilled
  if dayReset.tokens > 0 then (true, { dayReset with tokens := dayReset.tokens - 1 })
  else (false, dayReset)

/-- `clamp` of part_004 (lines 102-104): `Math.max(lo, Math.min(hi, n))`. -/
def clamp (n lo hi : ℚ) : ℚ :=
  max lo (min hi n)

/-- `estimateGasBps` of part_004 (lines 106-111). -/
def estimateGasBps (steps : ℕ) (gasGwei : ℚ) : ℚ :=
  let baseAt20 : ℚ := 5
  let perStep := gasGwei / 20 * baseAt20
  perStep * max 1 (steps : ℚ)

/-- The capture group `\d\x7b1,2\x7d(?:\.\d+)?` at the head of `cs`: one or
two digits taken greedily, then an optional fraction (a dot and at least one
digit, taken greedily).  Nothing follows the group in the pattern, so the
greedy choices never backtrack. -/
def capNumber : List Char → Option (List Char)
  | [] => none
  | c1 :: rest1 =>
    if c1.isDigit then
      let frac : List Char → List Char := fun cs =>
        match cs with
        | '.' :: c :: rest => if c.isDigit then '.' :: c :: rest.takeWhile Char.isDigit else []
        | _ => []
      match rest1 with
      | c2 :: rest2 =>
        if c2.isDigit then some (c1 :: c2 :: frac rest2)
        else some (c1 :: frac rest1)
      | [] => some [c1]
    else none

/-- Try the alternation `(?:x|×|leverage\s*|loop\s*)` followed by the number
capture at this exact position, alternatives in source order. -/
def capAt (cs : List Char) : Option (List Char) :=
  let afterWord : List Char → Option (List Char) := fun w =>
    if listStartsWith cs w then some ((cs.drop w.length).dropWhile jsWhitespace) else none
  let tryTail : Option (List Char) → Option (List Char) := fun t => t.bind capNumber
  (tryTail (match cs with | 'x' :: r => some r | _ => none)).orElse fun _ =>
  (tryTail (match cs with | '×' :: r => some r | _ => none)).orElse fun _ =>
  (tryTail (afterWord "leverage".toList)).orElse fun _ =>
  tryTail (afterWord "loop".toList)

/-- Leftmost match of `/(?:x|×|leverage\s*|loop\s*)(\d\x7b1,2\x7d(?:\.\d+)?)/`
over the text: scan positions left to right, returning the first capture. -/
def scanLeverage : List Char → Option (List Char)
  | [] => none
  | c :: rest =>
    match capAt (c :: rest) with
    | some cap => some cap
    | none => scanLeverage rest

/-- `parseFloat` on the captured `digits[.digits]` text. -/
def floatOfCap (ds : List Char) : ℚ :=
  let ip := ds.takeWhile Char.isDigit
  let rest := ds.dropWhile Char.isDigit
  let fp := match rest with | '.' :: f => f | _ => []
  (Js.digitsVal ip : ℚ) + (Js.digitsVal fp : ℚ) / (10 : ℚ) ^ fp.length

/-- `inferLeverageFromText` of part_004 (lines 113-119): regex-scan the
lowercased description and step list; default 1, and non-positive parses also
fall back to 1. -/
def inferLeverageFromText (opt : StrategyOption) : ℚ :=
  let text := (opt.description ++ " " ++ String.intercalate " " opt.steps).toLower
  match scanLeverage text.toList with
  | none => 1
  | some cap =>
    let parsed := floatOfCap cap
    if parsed > 0 then parsed else 1

/-- `effectiveAPYPercent` of part_004 (lines 121-148). -/
def effectiveAPYPercent (opt : StrategyOption) (market : MarketData) (agentMaxLev : ℚ)
    (preferEfficiency : Bool) : ℚ :=
  let gasBps := estimateGasBps opt.steps.length market.gasPrice
  let lev := clamp (inferLeverageFromText opt) 1 (max 1 agentMaxLev)
  let implied := inferLeverageFromText opt
  let net1 :=
    if implied > lev then opt.expectedAPY - (implied - lev) * (3 / 4) else opt.expectedAPY
  let net2 := net1 - gasBps / 100
  if preferEfficiency then net2 - max 0 ((opt.steps.length : ℚ) - 3) * (1 / 4) else net2

/-- `stabilityPenalty` of part_004 (lines 150-158). -/
def stabilityPenalty (opt : StrategyOption) (tolerance : RiskLevel)
    (preferStability : Bool) : ℚ :=
  if preferStability then
    let diff := riskRank opt.risk - riskRank tolerance
    if diff > 0 then (diff : ℚ) * (3 / 4) else 0
  else 0

/-- `contrarianNudge` of part_004 (lines 160-167): +0.25 when the lowercased
trend/sentiment text matches `/(bull|bear|greed|fear|extreme)/`. -/
def contrarianNudge (market : MarketData) (preferContrarian : Bool) : ℚ :=
  if preferContrarian then
    let t := (market.trend ++ " " ++ market.sentiment).toLower
    if ["bull", "bear", "greed", "fear", "extreme"].any
        (fun w => listHasSub w.toList t.toList) then 1 / 4 else 0
  else 0

/-- `ClaudeVerdict` of part_004 (lines 171-175). -/
structure ClaudeVerdict where
  approve : Bool
  reason : String
  concerns : Option (List String)
deriving DecidableEq

/-- The slice `trimmed.slice(start, end + 1)` from the first `\x7b` to the
last `\x7d`, when both occur; otherwise the whole input
(part_004 lines 205-208). -/
def braceSlice (cs : List Char) : List Char :=
  match firstIdxOf? '{' cs, lastIdxOf? cs '}' with
  | some i, some j => (cs.drop i).take (j + 1 - i)
  | _, _ => cs

/-- `safeParseClaudeJson` of part_004 (lines 204-234): trim, cut the brace
slice, `JSON.parse` it, and accept only an object with a boolean `approve`
and a string `reason`; `concerns` is kept only when it parsed as an array
whose elements are all strings.  Every failure path yields `none`. -/
def safeParseClaudeJson (s : String) : Option ClaudeVerdict :=
  let trimmed := jsTrimList s.toList
  match Js.parse (String.mk (braceSlice trimmed)) with
  | some (.obj ms) =>
    match Js.objGet ms "approve", Js.objGet ms "reason" with
    | some (.bool b), some (.str r) =>
      some { approve := b
             reason := r
             concerns :=
               match Js.objGet ms "concerns" with
               | some (.arr xs) => Js.strElems? xs
               | _ => none }
    | _, _ => none
  | _ => none

/-- The error thrown by an Anthropic call as part_004's `MinimalError`
inspects it. -/
structure ApiError where
  status : Option ℤ
  message : Option String
deriving DecidableEq

/-- part_004 line 277: `err.status === 404 || /not[_-]?found/i.test(message)`
(false when `message` is absent). -/
def is404 (e : ApiError) : Bool :=
  e.status == some 404 ||
    (match e.message with
     | some m => strHasSubCI m "not_found" || strHasSubCI m "not-found" || strHasSubCI m "notfound"
     | none => false)

/-- `claudeValidatePick` of part_004 (lines 236-286), parameterised by the
per-model call outcomes, one entry for each model of `args.models` in order:
`.ok text` is a resolved API call with `extractFirstText`'s result (always a
string), `.error e` a thrown error.  A successful call returns
`safeParseClaudeJson` of its text immediately — parsable or not — so no
further model is consulted; a non-404 error abandons the chain; a 404 moves
to the next model; an exhausted list is `none`. -/
def claudeValidatePick : List (Except ApiError String) → Option ClaudeVerdict
  | [] => none
  | .ok text :: _ => safeParseClaudeJson text
  | .error e :: rest => if is404 e then claudeValidatePick rest else none

/-- `filterByConstraints`-equivalent inline filter of part_004's `decide`
(lines 339-354): chain allow-list (normalised, with an escape for
network-less candidates), protocol preference (normalised), and risk at most
one tier above the stated tolerance. -/
def filterCandidates (c : Constraints) (candidates : List StrategyOption) :
    List StrategyOption :=
  let allowedChains := c.allowedChains.map normalize
  let preferredProtocols := c.preferredProtocols.map normalize
  candidates.filter fun opt =>
    let onAllowedChain :=
      opt.networks.isEmpty || opt.networks.any fun n => allowedChains.contains (normalize n)
    if ¬ onAllowedChain then false
    else if preferredProtocols ≠ [] ∧
        ¬ opt.protocols.any (fun p => preferredProtocols.contains (normalize p)) then false
    else if riskRank opt.risk - riskRank c.riskTolerance > 1 then false
    else true

/-- The `Scored` triple of part_004 (line 290). -/
structure Scored where
  opt : StrategyOption
  netAPY : ℚ
  score : ℚ
deriving DecidableEq

/-- `Decision` as part_004 returns it (its `wrapDecision` fills the absent
fields with `0` / `[]`). -/
structure Decision where
  strategy : String
  action : String
  reasoning : String
  expectedAPY : ℚ
  protocols : List String
deriving DecidableEq

/-- The post-constructor configuration of a part_004 agent (the constructor
defaults `anthropicModel` to `"claude-3-sonnet-20240229"` and
`enableClaudeValidation` to `true` when not supplied). -/
structure Config where
  id : String
  constraints : Constraints
  anthropicModel : Option String
  enableClaudeValidation : Bool
deriving DecidableEq

/-- The mutable fields of a part_004 agent: its token bucket and the last
committed pick. -/
structure State where
  bucket : Bucket
  lastChosen : Option StrategyOption
  lastAPY : Option ℚ
deriving DecidableEq

/-- `Number(q.toFixed(2))`: round to two decimals (`round` differs from JS
only on negative half-ties; no claim touches those). -/
def jsToFixed2Num (q : ℚ) : ℚ :=
  (round (q * 100) : ℤ) / 100

/-- The numeric part of part_004's scoring for one candidate (`decide`
lines 366-377): net APY after gas and leverage caps, minus the stability
penalty, plus the contrarian nudge. -/
def scoreOne (c : Constraints) (market : MarketData) (opt : StrategyOption) : Scored :=
  let net := effectiveAPYPercent opt market c.maxLeverage c.preferEfficiency
  { opt := opt
    netAPY := net
    score := net - stabilityPenalty opt c.riskTolerance c.preferStability +
      contrarianNudge market c.preferContrarian }

/-- The scored, descending-sorted candidate list of part_004's `decide`. -/
def scoredSorted (c : Constraints) (market : MarketData)
    (candidates : List StrategyOption) : List Scored :=
  sortDescBy Scored.score ((filterCandidates c candidates).map (scoreOne c market))

/-- `decide` of part_004 (lines 314-461).  `now` stands for `Date.now()`
inside the bucket, `candidates` for the catalog snapshot `findAllStrategies`
returned, `hasKey` for the presence of a non-empty `ANTHROPIC_API_KEY`, and
`oracle` for the per-model outcomes consumed by `claudeValidatePick`.
Returns the decision and the updated state (bucket consumption and, on a
commit, the remembered pick). -/
def decide (cfg : Config) (st : State) (now : ℤ) (market : MarketData)
    (candidates : List StrategyOption) (hasKey : Bool)
    (oracle : List (Except ApiError String)) : Decision × State :=
  let c := cfg.constraints
  if ¬ (market.gasPrice ≥ c.minGasPrice ∧ market.gasPrice ≤ c.maxGasPrice) then
    ({ strategy := "HOLD"
       action := "HOLD"
       reasoning := "Gas " ++ toString market.gasPrice ++ " gwei outside window [" ++
         toString c.minGasPrice ++ ", " ++ toString c.maxGasPrice ++ "]"
       expectedAPY := 0
       protocols := [] }, st)
  else
    match scoredSorted c market candidates with
    | [] =>
      ({ strategy := "HOLD"
         action := "HOLD"
         reasoning := "No strategies satisfied constraints. Holding position."
         expectedAPY := 0
         protocols := [] }, st)
    | chosen :: restScored =>
      let reasoning0 := "Picked by math: " ++ chosen.opt.name ++ " at ~" ++
        toString (jsToFixed2Num chosen.netAPY) ++ "% net APY after gas and caps."
      let wantsValidation := cfg.enableClaudeValidation
      let afterValidation : Bool × String × State :=
        if wantsValidation && hasKey then
          let consumed := tryConsume st.bucket now (some market.day)
          let st1 : State := { st with bucket := consumed.2 }
          if consumed.1 then
            match claudeValidatePick oracle with
            | some v =>
              let parts := [reasoning0,
                "Claude: " ++ (if v.approve then "approve" else "reject"),
                if v.reason ≠ "" then "(" ++ v.reason ++ ")" else "",
                match v.concerns with
                | some cs => if cs ≠ [] then "Concerns: " ++ String.intercalate "; " cs else ""
                | none => ""]
              (v.approve, String.intercalate " " (parts.filter (· ≠ "")), st1)
            | none => (true, reasoning0 ++ " (Skipped/failed Claude validation.)", st1)
          else (true, reasoning0 ++ " Skipped Claude validation due to daily rate limit.", st1)
        else if wantsValidation && !hasKey then
          (true, reasoning0 ++ " Skipped Claude validation (no API key).", st)
        else (true, reasoning0, st)
      let approved := afterValidation.1
      let reasoning1 := afterValidation.2.1
      let st1 := afterValidation.2.2
      if approved then
        ({ strategy := chosen.opt.name
           action := "ENTER_OR_MAINTAIN"
           reasoning := reasoning1
           expectedAPY := jsToFixed2Num chosen.netAPY
           protocols := chosen.opt.protocols },
         { st1 with lastChosen := some chosen.opt, lastAPY := some chosen.netAPY })
      else
        match (chosen :: restScored).find? (fun s =>
            s.opt.name ≠ chosen.opt.name &&
            Decidable.decide (|s.netAPY - chosen.netAPY| > 1 / 4) &&
            Decidable.decide (riskRank s.opt.risk ≤ riskRank c.riskTolerance + 1)) with
        | some fb =>
          ({ strategy := fb.opt.name
             action := "ENTER_OR_MAINTAIN"
             reasoning := reasoning1 ++ " Switching to alternative: " ++ fb.opt.name ++
               " at ~" ++ toString (jsToFixed2Num fb.netAPY) ++ "% net APY."
             expectedAPY := jsToFixed2Num fb.netAPY
             protocols := fb.opt.protocols },
           { st1 with lastChosen := some fb.opt, lastAPY := some fb.netAPY })
        | none =>
          ({ strategy := "HOLD"
             action := "HOLD"
             reasoning := reasoning1 ++ " No safe alternative found. Holding."
             expectedAPY := 0
             protocols := [] }, st1)

/-- `getCurrentStrategy` of part_004 (lines 463-469), the strategy/APY pair. -/
def getCurrentStrategy (st : State) : String × ℚ :=
  ((st.lastChosen.map StrategyOption.name).getD "HOLD", st.lastAPY.getD 0)

end P4

namespace SA

/-- The `type` discriminant of src/lib/types.ts's `Strategy`. -/
inductive StratType
  | SIMPLE
  | LOOP
  | BORROW_LEND
deriving DecidableEq

/-- `Strategy` of src/lib/types.ts (lines 32-43): the optional fields are
`borrowAPY`, `lendAPY` and `minGasPrice`. -/
structure Strategy where
  name : String
  type : StratType
  baseAPY : ℚ
  borrowAPY : Option ℚ
  lendAPY : Option ℚ
  maxLeverage : ℚ
  gasMultiplier : ℚ
  riskLevel : RiskLevel
  minGasPrice : Option ℚ
  description : String
deriving DecidableEq

/-- The record `calculateStrategyYield` returns. -/
structure YieldCalc where
  grossAPY : ℚ
  gasCost : ℚ
  netAPY : ℚ
  liquidationRisk : ℚ
deriving DecidableEq

/-- `calculateStrategyYield` of src/lib/types.ts (lines 133-178): leverage
clamped to the strategy's maximum, gross APY by strategy type, gas cost
`(gasPrice / 1000) * 0.002` per transaction needed, where the transactions
needed scale the strategy's `gasMultiplier` by `leverage / maxLeverage`. -/
def calculateStrategyYield (strategy : Strategy) (leverage0 gasPrice portfolioSize : ℚ) :
    YieldCalc :=
  let leverage := min leverage0 strategy.maxLeverage
  let grossAPY :=
    match strategy.type with
    | .SIMPLE => strategy.baseAPY
    | .LOOP => (strategy.baseAPY - jsOrNum strategy.borrowAPY 0) * leverage
    | .BORROW_LEND =>
      strategy.baseAPY +
        (jsOrNum strategy.lendAPY 0 - jsOrNum strategy.borrowAPY 0) * (leverage - 1)
  let transactionsNeeded := strategy.gasMultiplier * (leverage / strategy.maxLeverage)
  let gasCostPerTx := gasPrice / 1000 * (2 / 1000)
  let totalGasCost := gasCostPerTx * transactionsNeeded
  let annualizedGasCost := totalGasCost / portfolioSize * 12
  let netAPY := grossAPY - annualizedGasCost
  let liquidationRisk := min (leverage / strategy.maxLeverage * 100) 100
  { grossAPY := grossAPY, gasCost := totalGasCost, netAPY := netAPY
    liquidationRisk := liquidationRisk }

/-- `ETHERFI_STRATEGIES` of src/lib/types.ts (lines 45-130), as the ordered
key-record list the object literal spells. -/
def ETHERFI_STRATEGIES : List (String × Strategy) :=
  [("SIMPLE_STAKE",
    { name := "Simple weETH Holding", type := .SIMPLE, baseAPY := 3
      borrowAPY := none, lendAPY := none, maxLeverage := 1, gasMultiplier := 0
      riskLevel := .LOW, minGasPrice := none
      description := "Hold weETH and earn base staking yield (3%)" }),
   ("AAVE_LOOP_2X",
    { name := "Aave Loop 2x", type := .LOOP, baseAPY := 3
      borrowAPY := some 2, lendAPY := none, maxLeverage := 2, gasMultiplier := 2
      riskLevel := .LOW, minGasPrice := some 40
      description := "Supply weETH (3%), borrow ETH (2%), loop 2x = 2% net yield" }),
   ("AAVE_LOOP_5X",
    { name := "Aave Loop 5x", type := .LOOP, baseAPY := 3
      borrowAPY := some 2, lendAPY := none, maxLeverage := 5, gasMultiplier := 5
      riskLevel := .MEDIUM, minGasPrice := some 35
      description := "Supply weETH (3%), borrow ETH (2%), loop 5x = 5% net yield" }),
   ("AAVE_LOOP_10X",
    { name := "Aave Loop 10x", type := .LOOP, baseAPY := 3
      borrowAPY := some 2, lendAPY := none, maxLeverage := 10, gasMultiplier := 10
      riskLevel := .HIGH, minGasPrice := some 25
      description := "Supply weETH (3%), borrow ETH (2%), loop 10x = 10% net yield" }),
   ("AAVE_PYUSD",
    { name := "Aave PYUSD Strategy", type := .BORROW_LEND, baseAPY := 3
      borrowAPY := some 5, lendAPY := some 12, maxLeverage := 3, gasMultiplier := 4
      riskLevel := .HIGH, minGasPrice := some 30
      description := "Supply weETH (3%), borrow PYUSD (5%), lend PYUSD (12%) = 10% net" }),
   ("AAVE_RLUSD",
    { name := "Aave RLUSD Strategy", type := .BORROW_LEND, baseAPY := 3
      borrowAPY := some (9 / 2), lendAPY := some 11, maxLeverage := 3, gasMultiplier := 4
      riskLevel := .HIGH, minGasPrice := some 30
      description := "Supply weETH (3%), borrow RLUSD (4.5%), lend RLUSD (11%) = 9.5% net" }),
   ("AGGRESSIVE_MIX",
    { name := "Aggressive Multi-Strategy", type := .BORROW_LEND, baseAPY := 3
      borrowAPY := some 3, lendAPY := some 15, maxLeverage := 5, gasMultiplier := 8
      riskLevel := .EXTREME, minGasPrice := some 20
      description := "Mix of high-yield strategies across multiple protocols = 15%+ potential" })]

/-- `ETHERFI_STRATEGIES[key]`: `undefined` when the key names no strategy. -/
def stratFor (key : String) : Option Strategy :=
  (ETHERFI_STRATEGIES.find? (fun p => p.1 == key)).map Prod.snd

/-- The decision fields strategy-agent.ts's `executeDecision` consumes
(`action` and `confidence` are never read by that ledger; the transaction's
action is the resolved strategy key). -/
structure Decision where
  strategy : Option String
  leverage : Option ℚ
  reasoning : Option String
deriving DecidableEq

/-- The mutable agent fields of src/lib/agents/strategy-agent.ts the ledger
touches. -/
structure AgentState where
  portfolio : ℚ
  transactions : List Transaction
  currentStrategy : String
  currentLeverage : ℚ
deriving DecidableEq

/-- `executeDecision` of src/lib/agents/strategy-agent.ts (lines 132-172):
strategy key and leverage resolve through JS `||` fallbacks; an unknown
strategy key returns early with no transaction; gas — `calculateStrategyYield`'s
cost — is charged when the resolved strategy key OR the resolved leverage
differs from the current one (lines 154-160); daily yield accrues at the
strategy's net APY on the post-debit balance. -/
def executeDecision (st : AgentState) (decision : Decision) (marketData : MarketData) :
    AgentState :=
  let strategyKey := jsOrStr decision.strategy st.currentStrategy
  let leverage := jsOrNum decision.leverage st.currentLeverage
  match stratFor strategyKey with
  | none => st
  | some strategy =>
    let yields := calculateStrategyYield strategy leverage marketData.gasPrice st.portfolio
    let gasCost := if strategyKey ≠ st.currentStrategy ∨ leverage ≠ st.currentLeverage
      then yields.gasCost else 0
    let afterGas := st.portfolio - gasCost
    let dailyYield := afterGas * yields.netAPY / 100 / 365
    let newPortfolio := afterGas + dailyYield
    let tx : Transaction :=
      { day := marketData.day
        action := strategyKey
        reasoning := jsOrStr decision.reasoning "No reasoning provided"
        portfolioBefore := st.portfolio
        portfolioAfter := newPortfolio
        gasCost := gasCost }
    { portfolio := newPortfolio
      transactions := st.transactions ++ [tx]
      currentStrategy := strategyKey
      currentLeverage := leverage }

end SA

/-! Support definitions for the verification: the transaction-chain
predicate, accessors for the transaction a ledger step appended, and the
concrete fixtures the witnesses and counterexamples evaluate. -/

/-- Adjacent ledger entries chain: each entry's `portfolioAfter` is the next
entry's `portfolioBefore`. -/
def chainedList : List Transaction → Prop
  | [] => True
  | [_] => True
  | a :: b :: rest => a.portfolioAfter = b.portfolioBefore ∧ chainedList (b :: rest)

/-- The ledger invariant of an agent state: its transactions chain and the
last recorded `portfolioAfter` is the live balance. -/
def ledgerInv (st : AgentState) : Prop :=
  chainedList st.transactions ∧
    ∀ t, st.transactions.getLast? = some t → t.portfolioAfter = st.portfolio

/-- A placeholder transaction (never reached through `lastTx` on the states
the theorems build). -/
def defaultTx : Transaction :=
  { day := 0, action := "", reasoning := "", portfolioBefore := 0, portfolioAfter := 0
    gasCost := 0 }

/-- The most recent ledger entry of a state. -/
def lastTx (st : AgentState) : Transaction :=
  st.transactions.getLast?.getD defaultTx

/-- The transaction a part_005 ledger step appends. -/
def execTx5 (st : AgentState) (d : Decision) (m : MarketData) : Transaction :=
  lastTx (P5.executeDecision st d m)

/-- The transaction a part_006 ledger step appends. -/
def execTx6 (st : AgentState) (d : Decision) (m : MarketData) : Transaction :=
  lastTx (P6.executeDecision st d m)

/-- The transaction a strategy-agent.ts ledger step appends (when its
strategy key resolves). -/
def execTxSA (st : SA.AgentState) (d : SA.Decision) (m : MarketData) : Transaction :=
  (SA.executeDecision st d m).transactions.getLast?.getD defaultTx

/-- Fixture: constraints with gas window [10, 40] and no other restriction. -/
def fixConstraints : AgentConstraints :=
  { maxLeverage := 2, allowedChains := [], riskTolerance := .LOW, minGasPrice := 10
    maxGasPrice := 40, preferredProtocols := [], displayName := none, emoji := none
    color := none }

/-- Fixture: a market tick whose 55 gwei gas price violates the [10, 40]
window. -/
def fixHighGasTick : MarketData :=
  { day := 1, gasPrice := 55, trend := "STABLE", sentiment := "NEUTRAL" }

/-- Fixture: a calm 20 gwei market tick. -/
def fixCalmTick : MarketData :=
  { day := 1, gasPrice := 20, trend := "STABLE", sentiment := "NEUTRAL" }

/-- Fixture: a part_006 agent holding strategy "X" at 5% APY with gas window
[10, 40]. -/
def fixAgentX : AgentState :=
  { name := "Bot", portfolio := 10, transactions := [], currentStrategy := "X"
    currentAPY := 5, constraints := some fixConstraints }

/-- Fixture: part_004 constraints with gas window [10, 40], LOW tolerance,
no chain or protocol restriction, no soft preferences. -/
def fixP4Constraints : P4.Constraints :=
  { maxLeverage := 2, allowedChains := [], riskTolerance := .LOW, minGasPrice := 10
    maxGasPrice := 40, preferredProtocols := [], displayName := none
    preferEfficiency := false, preferStability := false, preferContrarian := false }

/-- Fixture: a part_004 agent configuration with validation enabled. -/
def fixP4Config : P4.Config :=
  { id := "agent-1", constraints := fixP4Constraints
    anthropicModel := some "claude-3-sonnet-20240229", enableClaudeValidation := true }

/-- Fixture: the strategy candidate "Alpha" (LOW risk, no networks listed,
7% APY). -/
def fixAlpha : StrategyOption :=
  { name := "Alpha", description := "plain staking", expectedAPY := 7
    protocols := ["etherfi"], networks := [], risk := .LOW
    steps := ["stake"] }

/-- Fixture: a part_004 agent state currently committed to "Alpha" at 7%,
with the constructor's fresh one-token daily bucket. -/
def fixP4State : P4.State :=
  { bucket := P4.mkBucket 1 86400000 0, lastChosen := some fixAlpha, lastAPY := some 7 }

/-- Fixture: a MEDIUM-risk candidate with no listed networks and no listed
protocols. -/
def fixMediumOpt : StrategyOption :=
  { name := "MediumPlay", description := "medium risk play", expectedAPY := 9
    protocols := [], networks := [], risk := .MEDIUM, steps := [] }

/-- Fixture: two simple ledger days used by the chain witness. -/
def fixTwoDays : List (Decision × MarketData) :=
  [({ strategy := some "A", action := some "A", reasoning := "enter A"
      expectedAPY := some 10, protocols := none, risk := none, confidence := none },
    { day := 0, gasPrice := 30, trend := "RISING", sentiment := "GREED" }),
   ({ strategy := some "B", action := some "B", reasoning := "enter B"
      expectedAPY := some 4, protocols := none, risk := none, confidence := none },
    { day := 1, gasPrice := 12, trend := "DECLINING", sentiment := "FEAR" })]

/-- Fixture: a decision that keeps strategy "S" but reports 0% expected
APY. -/
def fixZeroAPYDecision : Decision :=
  { strategy := some "S", action := some "S", reasoning := "hold S"
    expectedAPY := some 0, protocols := none, risk := none, confidence := none }

/-- Fixture: an agent in strategy "S" at 3% APY with no constraints. -/
def fixAgentS : AgentState :=
  { name := "Bot", portfolio := 10, transactions := [], currentStrategy := "S"
    currentAPY := 3, constraints := none }

/-- Fixture: a zero-gas market tick. -/
def fixZeroGasTick : MarketData :=
  { day := 2, gasPrice := 0, trend := "STABLE", sentiment := "NEUTRAL" }

/-- Fixture: a decision that switches to strategy "T". -/
def fixSwitchDecision : Decision :=
  { strategy := some "T", action := some "T", reasoning := "switch to T"
    expectedAPY := some 6, protocols := none, risk := none, confidence := none }

/-- Fixture: an oracle reply that received text which is not parsable as a
verdict. -/
def fixBadReply : List (Except P4.ApiError String) :=
  [Except.ok "I refuse to answer in JSON."]

/-- Fixture: a reply wrapping a valid verdict in prose. -/
def fixProseReply : String :=
  "Claude says: \x7b\"approve\": true, \"reason\": \"fine\", \"concerns\": []\x7d done"

/-- Fixture: an exhausted one-token bucket that last saw day 5. -/
def fixStaleBucket : P4.Bucket :=
  { capacity := 1, tokens := 0, refillMs := 86400000, lastRefill := 0
    lastDaySeen := some 5 }

/-- Fixture: the `AAVE_LOOP_2X` strategy record of `ETHERFI_STRATEGIES`. -/
def fixLoop2x : SA.Strategy :=
  { name := "Aave Loop 2x", type := .LOOP, baseAPY := 3
    borrowAPY := some 2, lendAPY := none, maxLeverage := 2, gasMultiplier := 2
    riskLevel := .LOW, minGasPrice := some 40
    description := "Supply weETH (3%), borrow ETH (2%), loop 2x = 2% net yield" }

/-- Fixture: a strategy-agent state holding `AAVE_LOOP_2X` at leverage 1. -/
def fixSAState : SA.AgentState :=
  { portfolio := 10, transactions := [], currentStrategy := "AAVE_LOOP_2X"
    currentLeverage := 1 }

/-- Fixture: a decision that keeps `AAVE_LOOP_2X` but moves leverage to 2. -/
def fixLeverageDecision : SA.Decision :=
  { strategy := some "AAVE_LOOP_2X", leverage := some 2, reasoning := some "lever up" }

/-- The string part_004's `safeParseClaudeJson` actually hands to
`JSON.parse`: the first-`\x7b`-to-last-`\x7d` slice of the trimmed input. -/
def braceSliceOf (s : String) : String :=
  String.mk (P4.braceSlice (jsTrimList s.toList))

/-! Helper lemmas about the ledger steps. -/

theorem exec5_append (st : AgentState) (d : Decision) (m : MarketData) :
    (P5.executeDecision st d m).transactions = st.transactions ++ [execTx5 st d m] := by
  simp [P5.executeDecision, execTx5, lastTx, List.getLast?_concat]

theorem exec5_before (st : AgentState) (d : Decision) (m : MarketData) :
    (execTx5 st d m).portfolioBefore = st.portfolio := by
  simp [P5.executeDecision, execTx5, lastTx, List.getLast?_concat]

theorem exec5_portfolio (st : AgentState) (d : Decision) (m : MarketData) :
    (P5.executeDecision st d m).portfolio = (execTx5 st d m).portfolioAfter := by
  simp [P5.executeDecision, execTx5, lastTx, List.getLast?_concat]

theorem exec6_append (st : AgentState) (d : Decision) (m : MarketData) :
    (P6.executeDecision st d m).transactions = st.transactions ++ [execTx6 st d m] := by
  simp [P6.executeDecision, execTx6, lastTx, List.getLast?_concat]

theorem exec6_before (st : AgentState) (d : Decision) (m : MarketData) :
    (execTx6 st d m).portfolioBefore = st.portfolio := by
  simp [P6.executeDecision, execTx6, lastTx, List.getLast?_concat]

theorem exec6_portfolio (st : AgentState) (d : Decision) (m : MarketData) :
    (P6.executeDecision st d m).portfolio = (execTx6 st d m).portfolioAfter := by
  simp [P6.executeDecision, execTx6, lastTx, List.getLast?_concat]

theorem chainedList_get :
    ∀ (txs : List Transaction) (i : ℕ) (h : i + 1 < txs.length), chainedList txs →
      (txs.get ⟨i, Nat.lt_of_succ_lt h⟩).portfolioAfter = (txs.get ⟨i + 1, h⟩).portfolioBefore := by
  intro txs
  induction txs with
  | nil => intro i h _; simp at h
  | cons a rest ih =>
    intro i h hc
    cases rest with
    | nil => simp at h
    | cons b r =>
      cases i with
      | zero => exact hc.1
      | succ i2 => exact ih i2 (Nat.succ_lt_succ_iff.mp h) hc.2

theorem chainedList_append :
    ∀ (txs : List Transaction) (tx : Transaction), chainedList txs →
      (∀ t, txs.getLast? = some t → t.portfolioAfter = tx.portfolioBefore) →
      chainedList (txs ++ [tx]) := by
  intro txs
  induction txs with
  | nil => intro tx _ _; trivial
  | cons a rest ih =>
    intro tx hc hlast
    cases rest with
    | nil => exact ⟨hlast a (by simp), trivial⟩
    | cons b r =>
      exact ⟨hc.1, ih tx hc.2 (fun t ht => hlast t (by simpa using ht))⟩

theorem exec5_inv (st : AgentState) (d : Decision) (m : MarketData) :
    ledgerInv st → ledgerInv (P5.executeDecision st d m) := by
  rintro ⟨hc, hl⟩
  constructor
  · rw [exec5_append]
    exact chainedList_append _ _ hc
      (fun t ht => by rw [exec5_before]; exact hl t ht)
  · intro t ht
    rw [exec5_append, List.getLast?_concat] at ht
    cases ht
    exact (exec5_portfolio st d m).symm

theorem exec6_inv (st : AgentState) (d : Decision) (m : MarketData) :
    ledgerInv st → ledgerInv (P6.executeDecision st d m) := by
  rintro ⟨hc, hl⟩
  constructor
  · rw [exec6_append]
    exact chainedList_append _ _ hc
      (fun t ht => by rw [exec6_before]; exact hl t ht)
  · intro t ht
    rw [exec6_append, List.getLast?_concat] at ht
    cases ht
    exact (exec6_portfolio st d m).symm

theorem processDays5_inv :
    ∀ (steps : List (Decision × MarketData)) (st : AgentState),
      ledgerInv st → ledgerInv (P5.processDays st steps) := by
  intro steps
  induction steps with
  | nil => intro st h; exact h
  | cons s rest ih => intro st h; exact ih (P5.executeDecision st s.1 s.2) (exec5_inv _ _ _ h)

theorem processDays6_inv :
    ∀ (steps : List (Decision × MarketData)) (st : AgentState),
      ledgerInv st → ledgerInv (P6.processDays st steps) := by
  intro steps
  induction steps with
  | nil => intro st h; exact h
  | cons s rest ih => intro st h; exact ih (P6.executeDecision st s.1 s.2) (exec6_inv _ _ _ h)

theorem mkAgent5_inv (nm : String) (co : Option AgentConstraints) :
    ledgerInv (P5.mkAgent nm co) := by
  constructor
  · trivial
  · intro t ht; simp [P5.mkAgent] at ht

theorem mkAgent6_inv (nm : String) (co : Option AgentConstraints) :
    ledgerInv (P6.mkAgent nm co) := by
  constructor
  · trivial
  · intro t ht; simp [P6.mkAgent] at ht

/-- Claim C2: for every agent (as constructed by part_005's resp. part_006's
constructor) and every sequence of processed days, the transaction list
chains: the `portfolioAfter` of transaction `i` equals the `portfolioBefore`
of transaction `i + 1`, for every index `i`. -/
theorem c2_chain :
    (∀ (nm : String) (co : Option AgentConstraints)
        (steps : List (Decision × MarketData)) (i : ℕ)
        (h : i + 1 < (P5.processDays (P5.mkAgent nm co) steps).transactions.length),
      (((P5.processDays (P5.mkAgent nm co) steps).transactions.get
          ⟨i, Nat.lt_of_succ_lt h⟩).portfolioAfter =
        ((P5.processDays (P5.mkAgent nm co) steps).transactions.get
          ⟨i + 1, h⟩).portfolioBefore)) ∧
    (∀ (nm : String) (co : Option AgentConstraints)
        (steps : List (Decision × MarketData)) (i : ℕ)
        (h : i + 1 < (P6.processDays (P6.mkAgent nm co) steps).transactions.length),
      (((P6.processDays (P6.mkAgent nm co) steps).transactions.get
          ⟨i, Nat.lt_of_succ_lt h⟩).portfolioAfter =
        ((P6.processDays (P6.mkAgent nm co) steps).transactions.get
          ⟨i + 1, h⟩).portfolioBefore)) := by
  constructor
  · intro nm co steps i h
    exact chainedList_get _ i h (processDays5_inv steps _ (mkAgent5_inv nm co)).1
  · intro nm co steps i h
    exact chainedList_get _ i h (processDays6_inv steps _ (mkAgent6_inv nm co)).1

/-- Witness for C2: a two-day run chains concretely. -/
theorem c2_witness :
    ((P5.processDays (P5.mkAgent "Zed" none) fixTwoDays).transactions.get
        ⟨0, by decide⟩).portfolioAfter =
      ((P5.processDays (P5.mkAgent "Zed" none) fixTwoDays).transactions.get
        ⟨1, by decide⟩).portfolioBefore :=
  c2_chain.1 "Zed" none fixTwoDays 0 (by decide)

/-- When its strategy key resolves, a strategy-agent.ts ledger step appends
exactly one transaction, whose action is the resolved strategy key and whose
gas cost is the strategy's `calculateStrategyYield` cost when the key or the
leverage changed and `0` otherwise. -/
theorem execSA_resolve (st : SA.AgentState) (d : SA.Decision) (m : MarketData)
    (strat : SA.Strategy)
    (hs : SA.stratFor (jsOrStr d.strategy st.currentStrategy) = some strat) :
    (SA.executeDecision st d m).transactions = st.transactions ++ [execTxSA st d m] ∧
    (execTxSA st d m).action = jsOrStr d.strategy st.currentStrategy ∧
    (execTxSA st d m).gasCost =
      (if jsOrStr d.strategy st.currentStrategy ≠ st.currentStrategy ∨
          jsOrNum d.leverage st.currentLeverage ≠ st.currentLeverage
        then (SA.calculateStrategyYield strat (jsOrNum d.leverage st.currentLeverage)
          m.gasPrice st.portfolio).gasCost
        else 0) := by
  refine ⟨?_, ?_, ?_⟩ <;>
    simp only [execTxSA, SA.executeDecision, hs, List.getLast?_concat, Option.getD_some]

/-- Claim C3 (amended): in part_006's (and part_005's identical) ledger the
appended transaction carries `gasCost = gasPrice / 1000 * 0.003` exactly
when its action differs from the current strategy, exactly `0` when it does
not, and that cost is positive iff the action differs provided the market
gas price is positive (at `gasPrice = 0` a strategy change is charged zero
gas). In strategy-agent.ts's ledger the appended transaction's action is the
resolved strategy key, and gas — `calculateStrategyYield`'s
`(gasPrice / 1000) * 0.002` per transaction needed — is charged exactly when
the resolved strategy key or the resolved leverage differs from the current
one: a leverage-only change with unchanged action is still charged, and an
unchanged key and leverage pays exactly `0`. -/
theorem c3_amended :
    (∀ (st : AgentState) (d : Decision) (m : MarketData),
      (P6.executeDecision st d m).transactions = st.transactions ++ [execTx6 st d m] ∧
      ((execTx6 st d m).action = st.currentStrategy → (execTx6 st d m).gasCost = 0) ∧
      ((execTx6 st d m).action ≠ st.currentStrategy →
        (execTx6 st d m).gasCost = m.gasPrice / 1000 * (3 / 1000)) ∧
      (0 < m.gasPrice →
        (0 < (execTx6 st d m).gasCost ↔
          (execTx6 st d m).action ≠ st.currentStrategy))) ∧
    (∀ (strat : SA.Strategy) (lv gp pf : ℚ),
      (SA.calculateStrategyYield strat lv gp pf).gasCost =
        gp / 1000 * (2 / 1000) *
          (strat.gasMultiplier * (min lv strat.maxLeverage / strat.maxLeverage))) ∧
    (∀ (st : SA.AgentState) (d : SA.Decision) (m : MarketData) (strat : SA.Strategy),
      SA.stratFor (jsOrStr d.strategy st.currentStrategy) = some strat →
      (SA.executeDecision st d m).transactions = st.transactions ++ [execTxSA st d m] ∧
      (execTxSA st d m).action = jsOrStr d.strategy st.currentStrategy ∧
      (jsOrStr d.strategy st.currentStrategy = st.currentStrategy ∧
          jsOrNum d.leverage st.currentLeverage = st.currentLeverage →
        (execTxSA st d m).gasCost = 0) ∧
      (¬ (jsOrStr d.strategy st.currentStrategy = st.currentStrategy ∧
          jsOrNum d.leverage st.currentLeverage = st.currentLeverage) →
        (execTxSA st d m).gasCost =
          (SA.calculateStrategyYield strat (jsOrNum d.leverage st.currentLeverage)
            m.gasPrice st.portfolio).gasCost)) := by
  refine ⟨?_, ?_, ?_⟩
  · intro st d m
    refine ⟨exec6_append st d m, ?_, ?_, ?_⟩ <;>
      simp only [execTx6, lastTx, P6.executeDecision, List.getLast?_concat,
        Option.getD_some]
    · intro hsame
      simp only [ne_eq, hsame, not_true_eq_false, if_false]
    · intro hdiff
      simp only [ne_eq] at hdiff
      simp only [ne_eq, if_pos hdiff]
    · intro hgas
      by_cases hsame : jsOrStr d.strategy st.currentStrategy = st.currentStrategy
      · simp [hsame]
      · have hpos : 0 < m.gasPrice / 1000 * (3 / 1000) := by positivity
        simp [hsame, hpos]
  · intro strat lv gp pf
    rfl
  · intro st d m strat hs
    obtain ⟨happ, hact, hgc⟩ := execSA_resolve st d m strat hs
    refine ⟨happ, hact, ?_, ?_⟩
    · rintro ⟨h1, h2⟩
      rw [hgc, if_neg (by simp [h1, h2])]
    · intro hch
      rw [not_and_or] at hch
      rw [hgc, if_pos hch]

/-- Counterexample for C3: two independent failures of "positive gasCost iff
the action differs". In part_006's ledger a strategy change at a zero gas
price is charged exactly `0`; in strategy-agent.ts's ledger a leverage-only
change (leverage 1 to 2 on an unchanged `AAVE_LOOP_2X`) appends a
transaction whose action equals the previous strategy yet whose gas cost is
positive. -/
theorem c3_counterexample :
    (fixZeroGasTick.gasPrice = 0 ∧
      (execTx6 fixAgentS fixSwitchDecision fixZeroGasTick).action ≠
        fixAgentS.currentStrategy ∧
      ¬ 0 < (execTx6 fixAgentS fixSwitchDecision fixZeroGasTick).gasCost) ∧
    ((execTxSA fixSAState fixLeverageDecision fixCalmTick).action =
        fixSAState.currentStrategy ∧
      0 < (execTxSA fixSAState fixLeverageDecision fixCalmTick).gasCost) := by
  have hsa := execSA_resolve fixSAState fixLeverageDecision fixCalmTick fixLoop2x rfl
  have hlev : jsOrNum fixLeverageDecision.leverage fixSAState.currentLeverage ≠
      fixSAState.currentLeverage := by
    simp only [fixLeverageDecision, fixSAState, jsOrNum]
    norm_num
  refine ⟨⟨rfl, ?_, ?_⟩, ?_, ?_⟩
  · simp [execTx6, lastTx, P6.executeDecision, List.getLast?_concat, fixAgentS,
      fixSwitchDecision, fixZeroGasTick, jsOrStr, jsOrNum]
  · simp [execTx6, lastTx, P6.executeDecision, List.getLast?_concat, fixAgentS,
      fixSwitchDecision, fixZeroGasTick, jsOrStr, jsOrNum]
  · rw [hsa.2.1]
    rfl
  · rw [hsa.2.2, if_pos (Or.inr hlev)]
    norm_num [SA.calculateStrategyYield, fixLoop2x, fixLeverageDecision, fixSAState,
      fixCalmTick, jsOrNum]

/-- Witness for C3: at 20 gwei a part_006 strategy change is charged a
positive gas cost, and a strategy-agent.ts leverage change is charged the
strategy's `calculateStrategyYield` cost. -/
theorem c3_witness :
    ((execTx6 fixAgentS fixSwitchDecision fixCalmTick).action ≠
        fixAgentS.currentStrategy ∧
      (0 : ℚ) < fixCalmTick.gasPrice ∧
      0 < (execTx6 fixAgentS fixSwitchDecision fixCalmTick).gasCost) ∧
    ((execTxSA fixSAState fixLeverageDecision fixCalmTick).action =
        jsOrStr fixLeverageDecision.strategy fixSAState.currentStrategy ∧
      (execTxSA fixSAState fixLeverageDecision fixCalmTick).gasCost =
        (SA.calculateStrategyYield fixLoop2x
          (jsOrNum fixLeverageDecision.leverage fixSAState.currentLeverage)
          fixCalmTick.gasPrice fixSAState.portfolio).gasCost) := by
  have h := c3_amended.1 fixAgentS fixSwitchDecision fixCalmTick
  have hdiff : (execTx6 fixAgentS fixSwitchDecision fixCalmTick).action ≠
      fixAgentS.currentStrategy := by
    simp [execTx6, lastTx, P6.executeDecision, List.getLast?_concat, fixAgentS,
      fixSwitchDecision, fixCalmTick, jsOrStr]
  have hgas : (0 : ℚ) < fixCalmTick.gasPrice := by norm_num [fixCalmTick]
  have h2 := c3_amended.2.2 fixSAState fixLeverageDecision fixCalmTick fixLoop2x rfl
  refine ⟨⟨hdiff, hgas, (h.2.2.2 hgas).mpr hdiff⟩, h2.2.1, h2.2.2.2 ?_⟩
  rintro ⟨-, hb⟩
  simp only [fixLeverageDecision, fixSAState, jsOrNum] at hb
  norm_num at hb

/-- Claim C7 (amended): both ledgers debit gas first and credit one day of
yield on the post-debit balance, so the appended transaction satisfies
`portfolioAfter = (portfolioBefore - gasCost) * (1 + apy / 100 / 365)` with
`portfolioBefore` the balance on entry and `portfolioAfter` the balance on
exit — where `apy` is the decision's `expectedAPY` whenever that field is a
number (part_005), respectively a non-zero number (part_006, whose `||`
fallback replaces a zero `expectedAPY` by the current APY). -/
theorem c7_amended :
    (∀ (st : AgentState) (d : Decision) (m : MarketData) (a : ℚ),
      d.expectedAPY = some a →
      (P5.executeDecision st d m).transactions = st.transactions ++ [execTx5 st d m] ∧
      (execTx5 st d m).portfolioBefore = st.portfolio ∧
      (execTx5 st d m).portfolioAfter =
        ((execTx5 st d m).portfolioBefore - (execTx5 st d m).gasCost) *
          (1 + a / 100 / 365) ∧
      (P5.executeDecision st d m).portfolio = (execTx5 st d m).portfolioAfter) ∧
    (∀ (st : AgentState) (d : Decision) (m : MarketData) (a : ℚ),
      d.expectedAPY = some a → a ≠ 0 →
      (P6.executeDecision st d m).transactions = st.transactions ++ [execTx6 st d m] ∧
      (execTx6 st d m).portfolioBefore = st.portfolio ∧
      (execTx6 st d m).portfolioAfter =
        ((execTx6 st d m).portfolioBefore - (execTx6 st d m).gasCost) *
          (1 + a / 100 / 365) ∧
      (P6.executeDecision st d m).portfolio = (execTx6 st d m).portfolioAfter) := by
  constructor
  · intro st d m a ha
    refine ⟨exec5_append st d m, exec5_before st d m, ?_, exec5_portfolio st d m⟩
    simp only [execTx5, lastTx, P5.executeDecision, ha, List.getLast?_concat,
      Option.getD_some]
    ring
  · intro st d m a ha ha0
    refine ⟨exec6_append st d m, exec6_before st d m, ?_, exec6_portfolio st d m⟩
    simp only [execTx6, lastTx, P6.executeDecision, ha, jsOrNum, List.getLast?_concat,
      Option.getD_some, if_neg ha0]
    ring

/-- Counterexample for C7: part_006's ledger applied to a decision whose
`expectedAPY` is the number `0` credits yield at the current 3% APY (the
`||` fallback), so the appended transaction violates the claimed formula
evaluated at `expectedAPY = 0`. -/
theorem c7_counterexample :
    (P6.executeDecision fixAgentS fixZeroAPYDecision fixZeroGasTick).transactions =
      [{ day := 2, action := "S", reasoning := "hold S", portfolioBefore := 10,
         portfolioAfter := 10 + 3 / 3650, gasCost := 0 }] ∧
    ¬ ((10 + 3 / 3650 : ℚ) = ((10 : ℚ) - 0) * (1 + 0 / 100 / 365)) := by
  constructor
  · simp [P6.executeDecision, fixAgentS, fixZeroAPYDecision, fixZeroGasTick, jsOrStr,
      jsOrNum]
    norm_num
  · norm_num

/-- Witness for C7: a concrete part_005 ledger step at 10% expected APY
satisfies the compounding formula. -/
theorem c7_witness :
    (execTx5 fixAgentS
        { strategy := some "A", action := some "A", reasoning := "enter A",
          expectedAPY := some 10, protocols := none, risk := none, confidence := none }
        fixCalmTick).portfolioAfter =
      ((execTx5 fixAgentS
          { strategy := some "A", action := some "A", reasoning := "enter A",
            expectedAPY := some 10, protocols := none, risk := none, confidence := none }
          fixCalmTick).portfolioBefore -
        (execTx5 fixAgentS
          { strategy := some "A", action := some "A", reasoning := "enter A",
            expectedAPY := some 10, protocols := none, risk := none, confidence := none }
          fixCalmTick).gasCost) * (1 + (10 : ℚ) / 100 / 365) :=
  (c7_amended.1 fixAgentS
    { strategy := some "A", action := some "A", reasoning := "enter A",
      expectedAPY := some 10, protocols := none, risk := none, confidence := none }
    fixCalmTick 10 rfl).2.2.1

/-- Claim C10: `DailyTokenBucket.tryConsume` refills the token count to full
capacity whenever it is called with a numeric day different from the last
day seen — smaller or previously seen days included, not only strictly new
days — so such a call returns `true` and leaves `capacity - 1` tokens, for
every bucket of positive capacity (the source's only bucket is constructed
with capacity 1) and regardless of the wall clock. -/
theorem c10_day_reset (st : P4.Bucket) (now : ℤ) (d : ℚ)
    (hcap : 0 < st.capacity) (hday : st.lastDaySeen ≠ some d) :
    (P4.tryConsume st now (some d)).1 = true ∧
    (P4.tryConsume st now (some d)).2.tokens = st.capacity - 1 ∧
    (P4.tryConsume st now (some d)).2.lastDaySeen = some d ∧
    (P4.tryConsume st now (some d)).2.capacity = st.capacity := by
  have hne : ∀ prev, st.lastDaySeen = some prev → d ≠ prev := by
    intro prev hp hdp
    exact hday (by rw [hp, hdp])
  unfold P4.tryConsume
  rcases hlast : st.lastDaySeen with _ | prev
  · by_cases href : now - st.lastRefill ≥ st.refillMs <;> simp [href, hlast, hcap]
  · have hd : d ≠ prev := hne prev hlast
    by_cases href : now - st.lastRefill ≥ st.refillMs <;> simp [href, hlast, hd, hcap]

/-- Witness for C10: an exhausted bucket that last saw day 5 still grants a
call for the earlier day 3. -/
theorem c10_witness :
    (P4.tryConsume fixStaleBucket 0 (some 3)).1 = true ∧
    (P4.tryConsume fixStaleBucket 0 (some 3)).2.tokens = 0 := by
  have h := c10_day_reset fixStaleBucket 0 3 (by norm_num [fixStaleBucket])
    (by norm_num [fixStaleBucket])
  exact ⟨h.1, by rw [h.2.1]; norm_num [fixStaleBucket]⟩

theorem jsOrStr_self (s : String) : jsOrStr (some s) s = s := by
  by_cases h : s = "" <;> simp [jsOrStr, h]

/-- Claim C4 (amended): when the gas price violates the window, part_005's
`makeDecision` immediately holds — the decision's strategy is the previous
`currentStrategy`, its `expectedAPY` the previous `currentAPY`, the ledger
charges zero gas, and the result does not depend on the catalog, the rate
limiter or the oracle (filtering and scoring never run) — while part_004's
`decide` also holds immediately and leaves its state untouched, but with the
literal sentinel `"HOLD"` and `expectedAPY = 0` instead of the previous
strategy and APY. -/
theorem c4_amended :
    (∀ (st : AgentState) (c : AgentConstraints) (market : MarketData)
        (catalog : Except Unit (List StrategyOption)) (g : Bool)
        (o : Except Unit P5.ClaudePick),
      st.constraints = some c →
      (market.gasPrice < c.minGasPrice ∨ market.gasPrice > c.maxGasPrice) →
      ((P5.makeDecision st market catalog g o).1.strategy = some st.currentStrategy ∧
        (P5.makeDecision st market catalog g o).1.expectedAPY = some st.currentAPY ∧
        (lastTx (P5.makeDecision st market catalog g o).2).gasCost = 0 ∧
        ∀ (catalog2 : Except Unit (List StrategyOption)) (g2 : Bool)
          (o2 : Except Unit P5.ClaudePick),
          P5.makeDecision st market catalog2 g2 o2 =
            P5.makeDecision st market catalog g o)) ∧
    (∀ (cfg : P4.Config) (st : P4.State) (now : ℤ) (market : MarketData)
        (cands : List StrategyOption) (hasKey : Bool)
        (oracle : List (Except P4.ApiError String)),
      (market.gasPrice < cfg.constraints.minGasPrice ∨
        market.gasPrice > cfg.constraints.maxGasPrice) →
      ((P4.decide cfg st now market cands hasKey oracle).1.strategy = "HOLD" ∧
        (P4.decide cfg st now market cands hasKey oracle).1.expectedAPY = 0 ∧
        (P4.decide cfg st now market cands hasKey oracle).2 = st)) := by
  constructor
  · intro st c market catalog g o hc hgas
    have hred : ∀ (cat : Except Unit (List StrategyOption)) (g2 : Bool)
        (o2 : Except Unit P5.ClaudePick),
        P5.makeDecision st market cat g2 o2 =
          (⟨some st.currentStrategy, some st.currentStrategy,
            "Holding: gas " ++ toString market.gasPrice ++ " gwei outside range " ++
              toString c.minGasPrice ++ "-" ++ toString c.maxGasPrice ++ ".",
            some st.currentAPY, none, some (riskName c.riskTolerance), none⟩,
           P5.executeDecision st
             ⟨some st.currentStrategy, some st.currentStrategy,
              "Holding: gas " ++ toString market.gasPrice ++ " gwei outside range " ++
                toString c.minGasPrice ++ "-" ++ toString c.maxGasPrice ++ ".",
              some st.currentAPY, none, some (riskName c.riskTolerance), none⟩ market) := by
      intro cat g2 o2
      unfold P5.makeDecision
      rw [hc]
      simp only [if_pos hgas]
    refine ⟨?_, ?_, ?_, ?_⟩
    · rw [hred catalog g o]
    · rw [hred catalog g o]
    · rw [hred catalog g o]
      simp [lastTx, P5.executeDecision, List.getLast?_concat, jsOrStr_self]
    · intro catalog2 g2 o2
      rw [hred catalog g o, hred catalog2 g2 o2]
  · intro cfg st now market cands hasKey oracle hgas
    have hout : ¬ (market.gasPrice ≥ cfg.constraints.minGasPrice ∧
        market.gasPrice ≤ cfg.constraints.maxGasPrice) := by
      rintro ⟨h1, h2⟩
      rcases hgas with h | h
      · exact absurd h1 (not_le.mpr h)
      · exact absurd h2 (not_le.mpr h)
    simp only [P4.decide]
    rw [if_pos hout]
    exact ⟨rfl, rfl, rfl⟩

/-- Counterexample for C4: part_004's gate decision carries the literal
sentinel `"HOLD"` and `expectedAPY = 0`, not the previous current strategy
("Alpha") and APY (7) that the agent holds. -/
theorem c4_counterexample :
    fixHighGasTick.gasPrice > fixP4Config.constraints.maxGasPrice ∧
    (P4.getCurrentStrategy fixP4State).1 = "Alpha" ∧
    (P4.decide fixP4Config fixP4State 0 fixHighGasTick [] true []).1.strategy ≠
      (P4.getCurrentStrategy fixP4State).1 ∧
    (P4.decide fixP4Config fixP4State 0 fixHighGasTick [] true []).1.expectedAPY ≠
      (P4.getCurrentStrategy fixP4State).2 := by
  have hstrat : (P4.decide fixP4Config fixP4State 0 fixHighGasTick [] true []).1.strategy =
      "HOLD" := by
    norm_num [P4.decide, fixP4Config, fixP4Constraints, fixHighGasTick]
  have hapy : (P4.decide fixP4Config fixP4State 0 fixHighGasTick [] true []).1.expectedAPY =
      0 := by
    norm_num [P4.decide, fixP4Config, fixP4Constraints, fixHighGasTick]
  refine ⟨by norm_num [fixHighGasTick, fixP4Config, fixP4Constraints], rfl, ?_, ?_⟩
  · rw [hstrat]
    decide
  · rw [hapy]
    norm_num [P4.getCurrentStrategy, fixP4State]

/-- Witness for C4: the spec's scenario — window [10, 40], gas 55 — holds
concretely on part_005's agent in strategy "X" at 5% APY. -/
theorem c4_witness :
    (P5.makeDecision fixAgentX fixHighGasTick (.ok []) false (.error ())).1.strategy =
      some "X" ∧
    (P5.makeDecision fixAgentX fixHighGasTick (.ok []) false (.error ())).1.expectedAPY =
      some 5 ∧
    (lastTx (P5.makeDecision fixAgentX fixHighGasTick (.ok []) false (.error ())).2).gasCost
      = 0 := by
  have h := c4_amended.1 fixAgentX fixConstraints fixHighGasTick (.ok []) false (.error ())
    rfl (by norm_num [fixHighGasTick, fixConstraints])
  exact ⟨h.1, h.2.1, h.2.2.1⟩

theorem exec5_len (st : AgentState) (d : Decision) (m : MarketData) :
    (P5.executeDecision st d m).transactions.length = st.transactions.length + 1 := by
  rw [exec5_append]
  simp

theorem exec6_len (st : AgentState) (d : Decision) (m : MarketData) :
    (P6.executeDecision st d m).transactions.length = st.transactions.length + 1 := by
  rw [exec6_append]
  simp

theorem jsOrStr_of_ne_empty {s : String} (h : s ≠ "") (dflt : String) :
    jsOrStr (some s) dflt = s := by
  simp [jsOrStr, h]

/-- Every path of part_005's `makeDecision` ends in exactly one
`executeDecision` on the decision it returns. -/
theorem make5_shape (st : AgentState) (market : MarketData)
    (catalog : Except Unit (List StrategyOption)) (g : Bool)
    (o : Except Unit P5.ClaudePick) :
    ∃ d, P5.makeDecision st market catalog g o = (d, P5.executeDecision st d market) := by
  unfold P5.makeDecision
  rcases hc : st.constraints with _ | c
  · rcases catalog with e | l
    · exact ⟨_, rfl⟩
    · exact ⟨_, rfl⟩
  · by_cases hg : market.gasPrice < c.minGasPrice ∨ market.gasPrice > c.maxGasPrice
    · simp only [if_pos hg]
      exact ⟨_, rfl⟩
    · simp only [if_neg hg]
      rcases catalog with e | l
      · exact ⟨_, rfl⟩
      · exact ⟨_, rfl⟩

/-- Outside the gas gate, every path of part_006's `makeDecision` ends in
exactly one `executeDecision` on the decision it returns. -/
theorem make6_shape (st : AgentState) (market : MarketData)
    (catalog : Except Unit (List StrategyOption)) (c1 c2 : Except P6.JsError String)
    (hgate : ∀ c, st.constraints = some c →
      c.minGasPrice ≤ market.gasPrice ∧ market.gasPrice ≤ c.maxGasPrice) :
    ∃ d, P6.makeDecision st market catalog c1 c2 = (d, P6.executeDecision st d market) := by
  unfold P6.makeDecision
  rcases hc : st.constraints with _ | c
  · rcases catalog with e | l
    · exact ⟨_, rfl⟩
    · rcases c1 with e1 | t1
      · by_cases hr : P6.isRateLimitErr e1 = true
        · simp only [if_pos hr]
          rcases c2 with e2 | t2
          · exact ⟨_, rfl⟩
          · exact ⟨_, rfl⟩
        · simp only [if_neg hr]
          exact ⟨_, rfl⟩
      · exact ⟨_, rfl⟩
  · have hng : ¬ (market.gasPrice < c.minGasPrice ∨ market.gasPrice > c.maxGasPrice) := by
      rintro (h | h)
      · exact absurd (hgate c hc).1 (not_le.mpr h)
      · exact absurd (hgate c hc).2 (not_le.mpr h)
    simp only [if_neg hng]
    rcases catalog with e | l
    · exact ⟨_, rfl⟩
    · rcases c1 with e1 | t1
      · by_cases hr : P6.isRateLimitErr e1 = true
        · simp only [if_pos hr]
          rcases c2 with e2 | t2
          · exact ⟨_, rfl⟩
          · exact ⟨_, rfl⟩
        · simp only [if_neg hr]
          exact ⟨_, rfl⟩
      · exact ⟨_, rfl⟩

/-- Claim C1 (amended): part_005's `makeDecision` appends exactly one
transaction on every input — and on a thrown catalog fetch the exception is
converted into a hold decision with reasoning
"API error, maintaining current position" while the ledger still runs —
whereas part_006's `makeDecision` does the same on every input that passes
the gas window, but its gas-window HOLD path returns without appending any
transaction. -/
theorem c1_amended :
    (∀ (st : AgentState) (market : MarketData)
        (catalog : Except Unit (List StrategyOption)) (g : Bool)
        (o : Except Unit P5.ClaudePick),
      (P5.makeDecision st market catalog g o).2.transactions.length =
        st.transactions.length + 1) ∧
    (∀ (st : AgentState) (market : MarketData) (g : Bool)
        (o : Except Unit P5.ClaudePick),
      (∀ c, st.constraints = some c →
        c.minGasPrice ≤ market.gasPrice ∧ market.gasPrice ≤ c.maxGasPrice) →
      ((P5.makeDecision st market (.error ()) g o).1.reasoning =
          "API error, maintaining current position" ∧
        (P5.makeDecision st market (.error ()) g o).1.strategy =
          some st.currentStrategy)) ∧
    (∀ (st : AgentState) (market : MarketData)
        (catalog : Except Unit (List StrategyOption))
        (c1 c2 : Except P6.JsError String),
      (∀ c, st.constraints = some c →
        c.minGasPrice ≤ market.gasPrice ∧ market.gasPrice ≤ c.maxGasPrice) →
      (P6.makeDecision st market catalog c1 c2).2.transactions.length =
        st.transactions.length + 1) ∧
    (∀ (st : AgentState) (market : MarketData) (c1 c2 : Except P6.JsError String),
      (∀ c, st.constraints = some c →
        c.minGasPrice ≤ market.gasPrice ∧ market.gasPrice ≤ c.maxGasPrice) →
      ((P6.makeDecision st market (.error ()) c1 c2).1.reasoning =
          "API error, maintaining current position" ∧
        (P6.makeDecision st market (.error ()) c1 c2).1.strategy =
          some st.currentStrategy)) := by
  refine ⟨?_, ?_, ?_, ?_⟩
  · intro st market catalog g o
    obtain ⟨d, hd⟩ := make5_shape st market catalog g o
    rw [hd]
    exact exec5_len st d market
  · intro st market g o hgate
    unfold P5.makeDecision
    rcases hc : st.constraints with _ | c
    · exact ⟨rfl, rfl⟩
    · have hng : ¬ (market.gasPrice < c.minGasPrice ∨ market.gasPrice > c.maxGasPrice) := by
        rintro (h | h)
        · exact absurd (hgate c hc).1 (not_le.mpr h)
        · exact absurd (hgate c hc).2 (not_le.mpr h)
      simp [if_neg hng]
  · intro st market catalog c1 c2 hgate
    obtain ⟨d, hd⟩ := make6_shape st market catalog c1 c2 hgate
    rw [hd]
    exact exec6_len st d market
  · intro st market c1 c2 hgate
    unfold P6.makeDecision
    rcases hc : st.constraints with _ | c
    · exact ⟨rfl, rfl⟩
    · have hng : ¬ (market.gasPrice < c.minGasPrice ∨ market.gasPrice > c.maxGasPrice) := by
        rintro (h | h)
        · exact absurd (hgate c hc).1 (not_le.mpr h)
        · exact absurd (hgate c hc).2 (not_le.mpr h)
      simp [if_neg hng]

/-- Counterexample for C1: part_006's gas-window HOLD path returns without
appending a transaction — after the call the transaction list is still
empty, not one entry longer. -/
theorem c1_counterexample :
    fixAgentX.constraints = some fixConstraints ∧
    fixHighGasTick.gasPrice > fixConstraints.maxGasPrice ∧
    fixAgentX.transactions = [] ∧
    (P6.makeDecision fixAgentX fixHighGasTick (.ok []) (.ok "") (.ok "")).2.transactions
      = [] := by
  refine ⟨rfl, by norm_num [fixHighGasTick, fixConstraints], rfl, ?_⟩
  norm_num [P6.makeDecision, fixAgentX, fixConstraints, fixHighGasTick]

/-- Witness for C1: a catalog failure still appends exactly one transaction
and yields the "API error" hold decision, in both ledgered agents. -/
theorem c1_witness :
    (P5.makeDecision fixAgentS fixCalmTick (.error ()) false (.error ())).1.reasoning =
      "API error, maintaining current position" ∧
    (P5.makeDecision fixAgentS fixCalmTick (.error ()) false
        (.error ())).2.transactions.length = fixAgentS.transactions.length + 1 ∧
    (P6.makeDecision fixAgentS fixCalmTick (.error ()) (.ok "") (.ok "")).1.reasoning =
      "API error, maintaining current position" ∧
    (P6.makeDecision fixAgentS fixCalmTick (.error ()) (.ok "")
        (.ok "")).2.transactions.length = fixAgentS.transactions.length + 1 :=
  ⟨(c1_amended.2.1 fixAgentS fixCalmTick false (.error ()) (fun _ h => nomatch h)).1,
   c1_amended.1 fixAgentS fixCalmTick (.error ()) false (.error ()),
   (c1_amended.2.2.2 fixAgentS fixCalmTick (.ok "") (.ok "") (fun _ h => nomatch h)).1,
   c1_amended.2.2.1 fixAgentS fixCalmTick (.error ()) (.ok "") (.ok "")
     (fun _ h => nomatch h)⟩

/-- Outside the gas gate, an empty constraint-filter result sends part_005's
`makeDecision` to the Simple-weETH-Holding fallback at the current APY (the
oracle cannot change that: there are no candidates to match). -/
theorem make5_empty (st : AgentState) (market : MarketData) (l : List StrategyOption)
    (g : Bool) (o : Except Unit P5.ClaudePick)
    (hgate : ∀ c, st.constraints = some c →
      c.minGasPrice ≤ market.gasPrice ∧ market.gasPrice ≤ c.maxGasPrice)
    (hfilter : P5.filterByConstraints st.constraints l = []) :
    ∃ r, P5.makeDecision st market (.ok l) g o =
      (⟨some "Simple weETH Holding", some "Simple weETH Holding", r,
          some st.currentAPY, some ["EtherFi"], some "LOW", some 8⟩,
        P5.executeDecision st
          ⟨some "Simple weETH Holding", some "Simple weETH Holding", r,
            some st.currentAPY, some ["EtherFi"], some "LOW", some 8⟩ market) := by
  unfold P5.makeDecision
  rcases hc : st.constraints with _ | c
  · rw [hc] at hfilter
    simp only [hfilter]
    cases g
    · exact ⟨_, rfl⟩
    · rcases o with e | pick
      · exact ⟨_, rfl⟩
      · by_cases hp : pick.strategyName = ""
        · simp only [if_neg (not_not_intro hp)]
          exact ⟨_, rfl⟩
        · simp only [if_pos hp]
          exact ⟨_, rfl⟩
  · rw [hc] at hfilter
    have hng : ¬ (market.gasPrice < c.minGasPrice ∨ market.gasPrice > c.maxGasPrice) := by
      rintro (h | h)
      · exact absurd (hgate c hc).1 (not_le.mpr h)
      · exact absurd (hgate c hc).2 (not_le.mpr h)
    simp only [if_neg hng, hfilter]
    cases g
    · exact ⟨_, rfl⟩
    · rcases o with e | pick
      · exact ⟨_, rfl⟩
      · by_cases hp : pick.strategyName = ""
        · simp only [if_neg (not_not_intro hp)]
          exact ⟨_, rfl⟩
        · simp only [if_pos hp]
          exact ⟨_, rfl⟩

/-- Claim C6 (amended): when constraint filtering leaves zero candidates,
part_004's `decide` short-circuits to a HOLD decision with
`expectedAPY = 0`, unchanged state and no error; part_005's `makeDecision`
instead falls back to the "Simple weETH Holding" strategy with
`expectedAPY` equal to the current APY, and its ledger charges gas exactly
when that fallback differs from the current strategy. -/
theorem c6_amended :
    (∀ (cfg : P4.Config) (st : P4.State) (now : ℤ) (market : MarketData)
        (cands : List StrategyOption) (hasKey : Bool)
        (oracle : List (Except P4.ApiError String)),
      cfg.constraints.minGasPrice ≤ market.gasPrice →
      market.gasPrice ≤ cfg.constraints.maxGasPrice →
      P4.filterCandidates cfg.constraints cands = [] →
      P4.decide cfg st now market cands hasKey oracle =
        ({ strategy := "HOLD", action := "HOLD",
           reasoning := "No strategies satisfied constraints. Holding position.",
           expectedAPY := 0, protocols := [] }, st)) ∧
    (∀ (st : AgentState) (market : MarketData) (l : List StrategyOption) (g : Bool)
        (o : Except Unit P5.ClaudePick),
      (∀ c, st.constraints = some c →
        c.minGasPrice ≤ market.gasPrice ∧ market.gasPrice ≤ c.maxGasPrice) →
      P5.filterByConstraints st.constraints l = [] →
      ((P5.makeDecision st market (.ok l) g o).1.strategy =
          some "Simple weETH Holding" ∧
        (P5.makeDecision st market (.ok l) g o).1.expectedAPY = some st.currentAPY ∧
        (lastTx (P5.makeDecision st market (.ok l) g o).2).gasCost =
          (if "Simple weETH Holding" ≠ st.currentStrategy
           then market.gasPrice / 1000 * (3 / 1000) else 0))) := by
  constructor
  · intro cfg st now market cands hasKey oracle h1 h2 hfilter
    have hs : P4.scoredSorted cfg.constraints market cands = [] := by
      rw [P4.scoredSorted, hfilter]
      rfl
    have hin : ¬ ¬ (market.gasPrice ≥ cfg.constraints.minGasPrice ∧
        market.gasPrice ≤ cfg.constraints.maxGasPrice) := not_not_intro ⟨h1, h2⟩
    simp only [P4.decide]
    rw [if_neg hin, hs]
  · intro st market l g o hgate hfilter
    obtain ⟨r, hr⟩ := make5_empty st market l g o hgate hfilter
    rw [hr]
    refine ⟨rfl, rfl, ?_⟩
    simp [lastTx, P5.executeDecision, List.getLast?_concat,
      jsOrStr_of_ne_empty (by decide : ("Simple weETH Holding" : String) ≠ "")]

/-- Counterexample for C6: with an empty candidate list, part_005's agent in
strategy "X" at 5% gets the fallback decision (not `HOLD`), keeps
`expectedAPY = 5` (not 0), and pays a strategy-change gas cost. -/
theorem c6_counterexample :
    P5.filterByConstraints fixAgentX.constraints [] = [] ∧
    (P5.makeDecision fixAgentX fixCalmTick (.ok []) false (.error ())).1.strategy ≠
      some "HOLD" ∧
    (P5.makeDecision fixAgentX fixCalmTick (.ok []) false (.error ())).1.expectedAPY ≠
      some 0 ∧
    (lastTx (P5.makeDecision fixAgentX fixCalmTick (.ok []) false (.error ())).2).gasCost
      ≠ 0 := by
  have hgate : ∀ c, fixAgentX.constraints = some c →
      c.minGasPrice ≤ fixCalmTick.gasPrice ∧ fixCalmTick.gasPrice ≤ c.maxGasPrice := by
    intro c h
    have hcc : c = fixConstraints := by
      have h2 : (some fixConstraints : Option AgentConstraints) = some c := h
      injection h2 with h3
      exact h3.symm
    subst hcc
    exact ⟨by norm_num [fixConstraints, fixCalmTick], by norm_num [fixConstraints, fixCalmTick]⟩
  obtain ⟨r, hr⟩ := make5_empty fixAgentX fixCalmTick [] false (.error ()) hgate rfl
  rw [hr]
  refine ⟨rfl, by simp, ?_, ?_⟩
  · simp [fixAgentX]
  · simp [lastTx, P5.executeDecision, List.getLast?_concat, jsOrStr, fixAgentX,
      fixCalmTick]

/-- Witness for C6: with no candidates, part_004's decide returns the HOLD
decision with zero APY and part_005's decision keeps the current APY. -/
theorem c6_witness :
    P4.decide fixP4Config fixP4State 0 fixCalmTick [] true [] =
      ({ strategy := "HOLD", action := "HOLD",
         reasoning := "No strategies satisfied constraints. Holding position.",
         expectedAPY := 0, protocols := [] }, fixP4State) ∧
    (P5.makeDecision fixAgentX fixCalmTick (.ok []) false (.error ())).1.expectedAPY =
      some fixAgentX.currentAPY :=
  ⟨c6_amended.1 fixP4Config fixP4State 0 fixCalmTick [] true []
      (by norm_num [fixP4Config, fixP4Constraints, fixCalmTick])
      (by norm_num [fixP4Config, fixP4Constraints, fixCalmTick]) rfl,
   (c6_amended.2 fixAgentX fixCalmTick [] false (.error ())
      (fun c h => by
        have hcc : c = fixConstraints := by
          have h2 : (some fixConstraints : Option AgentConstraints) = some c := h
          injection h2 with h3
          exact h3.symm
        subst hcc
        exact ⟨by norm_num [fixConstraints, fixCalmTick],
          by norm_num [fixConstraints, fixCalmTick]⟩) rfl).2.1⟩

/-- Claim C5 (amended): under part_005's `filterByConstraints` a candidate
that passes the chain and protocol checks is kept exactly when its risk-tier
index is at most the agent's ceiling index; part_004's inline filter instead
admits up to one tier above the ceiling (kept exactly when
`riskRank ≤ riskRank(ceiling) + 1`). -/
theorem c5_amended :
    (∀ (c : AgentConstraints) (s : StrategyOption) (l : List StrategyOption),
      s ∈ l →
      (c.allowedChains.isEmpty ||
        s.networks.any fun n => c.allowedChains.contains n.toLower) = true →
      (c.preferredProtocols.isEmpty ||
        s.protocols.any fun p => c.preferredProtocols.contains p) = true →
      (s ∈ P5.filterByConstraints (some c) l ↔
        riskIdx s.risk ≤ riskIdx c.riskTolerance)) ∧
    (∀ (c : P4.Constraints) (s : StrategyOption) (l : List StrategyOption),
      s ∈ l →
      (s.networks.isEmpty ||
        s.networks.any fun n => (c.allowedChains.map normalize).contains (normalize n))
        = true →
      ((c.preferredProtocols.map normalize).isEmpty ||
        s.protocols.any fun p =>
          (c.preferredProtocols.map normalize).contains (normalize p)) = true →
      (s ∈ P4.filterCandidates c l ↔
        riskRank s.risk ≤ riskRank c.riskTolerance + 1)) := by
  constructor
  · intro c s l hs hchain hprot
    simp only [P5.filterByConstraints, List.mem_filter, hs, true_and,
      Bool.and_eq_true, hchain, hprot, and_true, decide_eq_true_eq]
  · intro c s l hs hchain hprot
    have hno2 : ¬ ((c.preferredProtocols.map normalize ≠ []) ∧
        ¬ (s.protocols.any fun p =>
          (c.preferredProtocols.map normalize).contains (normalize p)) = true) := by
      rintro ⟨hne, hnany⟩
      have hprot2 := hprot
      rw [Bool.or_eq_true] at hprot2
      rcases hprot2 with hemp | hany
      · exact hne (List.isEmpty_iff.mp hemp)
      · exact hnany hany
    simp only [P4.filterCandidates, List.mem_filter, hs, true_and, hchain,
      not_true_eq_false, if_false]
    by_cases hrk : riskRank s.risk - riskRank c.riskTolerance > 1
    · simp only [hno2, if_false, if_pos hrk]
      constructor
      · intro h
        simp at h
      · intro h
        exact absurd h (by omega)
    · simp only [hno2, if_false, if_neg hrk]
      constructor
      · intro _
        omega
      · intro _
        trivial

/-- Counterexample for C5: part_004's filter admits a MEDIUM-risk candidate
under a LOW risk ceiling — one tier above it. -/
theorem c5_counterexample :
    fixMediumOpt ∈ P4.filterCandidates fixP4Constraints [fixMediumOpt] ∧
    ¬ riskIdx fixMediumOpt.risk ≤ riskIdx fixP4Constraints.riskTolerance := by
  constructor
  · simp [P4.filterCandidates, fixMediumOpt, fixP4Constraints, riskRank]
  · decide

/-- Witness for C5: a LOW-risk candidate under a LOW ceiling, with the chain
and protocol checks trivially satisfied, is kept by part_005's filter if and
only if the index comparison holds. -/
theorem c5_witness :
    fixAlpha ∈ P5.filterByConstraints (some fixConstraints) [fixAlpha] ↔
      riskIdx fixAlpha.risk ≤ riskIdx fixConstraints.riskTolerance :=
  c5_amended.1 fixConstraints fixAlpha [fixAlpha] (by simp) rfl rfl

theorem insertDescBy_length {α : Type} (key : α → ℚ) (x : α) :
    ∀ l : List α, (insertDescBy key x l).length = l.length + 1 := by
  intro l
  induction l with
  | nil => rfl
  | cons y ys ih => by_cases h : key y < key x <;> simp [insertDescBy, h, ih]

theorem sortDescBy_length {α : Type} (key : α → ℚ) (l : List α) :
    (sortDescBy key l).length = l.length := by
  suffices h : ∀ acc : List α,
      (List.foldl (fun acc x => insertDescBy key x acc) acc l).length =
        acc.length + l.length by
    simpa using h []
  induction l with
  | nil => intro acc; simp
  | cons y ys ih =>
    intro acc
    simp only [List.foldl_cons, ih, insertDescBy_length, List.length_cons]
    omega

/-- Claim C8: a successfully received oracle reply ends `claudeValidatePick`
immediately — the parse of its text is returned whether usable or not, so an
unparsable reply yields "no opinion" without trying further fallback
models — and a "no opinion" verdict never blocks `decide`: the top-scored
candidate is committed as if approved. -/
theorem c8_no_opinion :
    (∀ (t : String) (rest : List (Except P4.ApiError String)),
      P4.claudeValidatePick (.ok t :: rest) = P4.safeParseClaudeJson t) ∧
    (∀ (cfg : P4.Config) (st : P4.State) (now : ℤ) (market : MarketData)
        (cands : List StrategyOption) (oracle : List (Except P4.ApiError String)),
      cfg.constraints.minGasPrice ≤ market.gasPrice →
      market.gasPrice ≤ cfg.constraints.maxGasPrice →
      P4.filterCandidates cfg.constraints cands ≠ [] →
      cfg.enableClaudeValidation = true →
      (P4.tryConsume st.bucket now (some market.day)).1 = true →
      P4.claudeValidatePick oracle = none →
      ∃ (chosen : P4.Scored) (restScored : List P4.Scored),
        P4.scoredSorted cfg.constraints market cands = chosen :: restScored ∧
        (P4.decide cfg st now market cands true oracle).1.strategy = chosen.opt.name ∧
        (P4.decide cfg st now market cands true oracle).2.lastChosen =
          some chosen.opt) := by
  constructor
  · intro t rest
    rfl
  · intro cfg st now market cands oracle h1 h2 hfil hval hconsume horacle
    have hsne : P4.scoredSorted cfg.constraints market cands ≠ [] := by
      intro h
      apply hfil
      have hlen := congrArg List.length h
      rw [P4.scoredSorted, sortDescBy_length, List.length_map] at hlen
      exact List.length_eq_zero.mp hlen
    obtain ⟨chosen, restScored, hsc⟩ := List.exists_cons_of_ne_nil hsne
    refine ⟨chosen, restScored, hsc, ?_⟩
    have hin : ¬ ¬ (market.gasPrice ≥ cfg.constraints.minGasPrice ∧
        market.gasPrice ≤ cfg.constraints.maxGasPrice) := not_not_intro ⟨h1, h2⟩
    simp only [P4.decide]
    rw [if_neg hin, hsc]
    simp [hval, hconsume, horacle]

/-- Witness for C8: an oracle reply received as non-JSON prose leaves the
verdict at "no opinion" and the single LOW-risk candidate is committed. -/
theorem c8_witness :
    ∃ (chosen : P4.Scored) (restScored : List P4.Scored),
      P4.scoredSorted fixP4Config.constraints fixCalmTick [fixAlpha] =
        chosen :: restScored ∧
      (P4.decide fixP4Config fixP4State 0 fixCalmTick [fixAlpha] true
          fixBadReply).1.strategy = chosen.opt.name ∧
      (P4.decide fixP4Config fixP4State 0 fixCalmTick [fixAlpha] true
          fixBadReply).2.lastChosen = some chosen.opt :=
  c8_no_opinion.2 fixP4Config fixP4State 0 fixCalmTick [fixAlpha] fixBadReply
    (by norm_num [fixP4Config, fixP4Constraints, fixCalmTick])
    (by norm_num [fixP4Config, fixP4Constraints, fixCalmTick])
    (by simp [P4.filterCandidates, fixP4Config, fixP4Constraints, fixAlpha])
    rfl
    (by simp [P4.tryConsume, fixP4State, P4.mkBucket, fixCalmTick])
    (by rfl)

/-! Helper lemmas for the `safeParseClaudeJson` claim: string trimming,
index finding and the all-strings extraction. -/

theorem strElems?_eq_some :
    ∀ {xs : List Js.Json} {cs : List String},
      Js.strElems? xs = some cs → xs = cs.map Js.Json.str := by
  intro xs
  induction xs with
  | nil =>
    intro cs h
    have h2 : (some ([] : List String) : Option (List String)) = some cs := h
    injection h2 with h3
    rw [← h3]
    rfl
  | cons x rest ih =>
    intro cs h
    rw [Js.strElems?, List.mapM_cons] at h
    rcases hr : Js.strElems? rest with _ | bs
    all_goals rw [Js.strElems?] at hr
    all_goals rw [hr] at h
    all_goals rcases x with _ | b | q | s | elems | ms
    case none.str =>
      exact absurd (show (none : Option (List String)) = some cs from h) (by simp)
    case some.str =>
      have h2 : (some (s :: bs) : Option (List String)) = some cs := h
      injection h2 with h3
      rw [← h3, ih (show Js.strElems? rest = some bs from by rw [Js.strElems?]; exact hr)]
      rfl
    all_goals
      exact absurd (show (none : Option (List String)) = some cs from h) (by simp)

theorem strElems?_map_str (cs : List String) :
    Js.strElems? (cs.map Js.Json.str) = some cs := by
  induction cs with
  | nil => rfl
  | cons c rest ih =>
    rw [List.map_cons, Js.strElems?, List.mapM_cons]
    rw [Js.strElems?] at ih
    rw [ih]
    rfl

theorem dropWhile_head?_not (p : Char → Bool) :
    ∀ (l : List Char) (c : Char), (l.dropWhile p).head? = some c → p c = false := by
  intro l
  induction l with
  | nil => intro c h; simp at h
  | cons x xs ih =>
    intro c h
    rw [List.dropWhile_cons] at h
    by_cases hx : p x = true
    · rw [if_pos hx] at h
      exact ih c h
    · rw [if_neg hx] at h
      have hxc : x = c := by
        have h2 : some x = some c := h
        injection h2
      subst hxc
      simp only [Bool.not_eq_true] at hx
      exact hx

theorem getLast?_dropWhile (p : Char → Bool) :
    ∀ l : List Char, l.dropWhile p ≠ [] → (l.dropWhile p).getLast? = l.getLast? := by
  intro l
  induction l with
  | nil => intro h; exact absurd rfl h
  | cons x xs ih =>
    intro h
    rw [List.dropWhile_cons] at h ⊢
    by_cases hx : p x = true
    · rw [if_pos hx] at h ⊢
      have hxs : xs ≠ [] := by
        intro he
        subst he
        exact h rfl
      rw [ih h]
      rcases List.exists_cons_of_ne_nil hxs with ⟨b, L, hb⟩
      subst hb
      rfl
    · rw [if_neg hx]

theorem jsTrimList_eq_self (cs : List Char)
    (hh : ∀ c, cs.head? = some c → jsWhitespace c = false)
    (hl : ∀ c, cs.getLast? = some c → jsWhitespace c = false) :
    jsTrimList cs = cs := by
  unfold jsTrimList
  have h1 : cs.dropWhile jsWhitespace = cs := by
    cases cs with
    | nil => rfl
    | cons c rest => simp [List.dropWhile_cons, hh c rfl]
  rw [h1]
  have h2 : cs.reverse.dropWhile jsWhitespace = cs.reverse := by
    rcases hr : cs.reverse with _ | ⟨c, rest⟩
    · rfl
    · have hc : cs.getLast? = some c := by
        rw [← List.head?_reverse, hr]
        rfl
      simp [List.dropWhile_cons, hl c hc]
  rw [h2, List.reverse_reverse]

theorem jsTrimList_idem (l : List Char) : jsTrimList (jsTrimList l) = jsTrimList l := by
  apply jsTrimList_eq_self
  · intro c h
    unfold jsTrimList at h
    rw [List.head?_reverse] at h
    have hne : (l.dropWhile jsWhitespace).reverse.dropWhile jsWhitespace ≠ [] := by
      intro he
      rw [he] at h
      simp at h
    rw [getLast?_dropWhile jsWhitespace _ hne, List.getLast?_reverse] at h
    exact dropWhile_head?_not jsWhitespace l c h
  · intro c h
    unfold jsTrimList at h
    rw [List.getLast?_reverse] at h
    exact dropWhile_head?_not jsWhitespace _ c h

theorem firstIdxOf?_get :
    ∀ (cs : List Char) (c : Char) (i : ℕ), firstIdxOf? c cs = some i →
      cs.get? i = some c := by
  intro cs
  induction cs with
  | nil => intro c i h; simp [firstIdxOf?] at h
  | cons x rest ih =>
    intro c i h
    rw [firstIdxOf?] at h
    by_cases hx : (x == c) = true
    · rw [if_pos hx] at h
      have h0 : i = 0 := by
        injection h with h2
        exact h2.symm
      subst h0
      simp [eq_of_beq hx]
    · rw [if_neg hx] at h
      rcases hmap : firstIdxOf? c rest with _ | k
      · rw [hmap] at h
        simp at h
      · rw [hmap] at h
        simp only [Option.map_some', Option.some.injEq] at h
        subst h
        simpa using ih c k hmap

theorem lastIdxOf?_get (cs : List Char) (c : Char) (j : ℕ) :
    lastIdxOf? cs c = some j → cs.get? j = some c := by
  unfold lastIdxOf?
  rcases h1 : firstIdxOf? c cs.reverse with _ | k
  · intro h
    simp at h
  · intro h
    simp only [Option.map_some', Option.some.injEq] at h
    have hg : cs.reverse.get? k = some c := firstIdxOf?_get _ _ _ h1
    have hk : k < cs.length := by
      have := (List.get?_eq_some.mp hg).1
      simpa using this
    rw [List.get?_reverse (by simpa using hk)] at hg
    rw [← h]
    exact hg

theorem lastIdxOf?_concat_last (l : List Char) (c : Char) :
    lastIdxOf? (l ++ [c]) c = some l.length := by
  unfold lastIdxOf?
  rw [List.reverse_append]
  simp [firstIdxOf?]

theorem braceSlice_shape (cs : List Char) (i j : ℕ)
    (hi : firstIdxOf? '{' cs = some i) (hj : lastIdxOf? cs '}' = some j)
    (hij : i < j) :
    ∃ mid, (cs.drop i).take (j + 1 - i) = '{' :: mid ++ ['}'] := by
  have hgi : cs.get? i = some '{' := firstIdxOf?_get _ _ _ hi
  have hgj : cs.get? j = some '}' := lastIdxOf?_get _ _ _ hj
  have hdrop : cs.drop i = '{' :: cs.drop (i + 1) := by
    have h0 : (cs.drop i).get? 0 = some '{' := by
      rw [List.get?_eq_getElem?, List.getElem?_drop, ← List.get?_eq_getElem?]
      simpa using hgi
    rcases hd : cs.drop i with _ | ⟨x, rest⟩
    · rw [hd] at h0
      simp at h0
    · rw [hd] at h0
      have hx : x = '{' := by
        have h2 : some x = some '{' := h0
        injection h2
      subst hx
      have hrest : rest = cs.drop (i + 1) := by
        have := List.tail_drop cs i
        rw [hd] at this
        simpa using this
      rw [hrest]
  refine ⟨(cs.drop (i + 1)).take (j - i - 1), ?_⟩
  rw [hdrop]
  have hsplit : j + 1 - i = (j - i - 1) + 1 + 1 := by omega
  rw [hsplit, List.take_succ_cons]
  have htake : (cs.drop (i + 1)).take (j - i - 1 + 1) =
      (cs.drop (i + 1)).take (j - i - 1) ++ ['}'] := by
    rw [List.take_succ]
    congr 1
    rw [List.getElem?_drop]
    have harg : i + 1 + (j - i - 1) = j := by omega
    rw [harg]
    rw [← List.get?_eq_getElem?, hgj]
    rfl
  rw [htake]
  rfl

/-- Claim C9: `safeParseClaudeJson` is total by construction and returns
`some` exactly for a parsed JSON object carrying a boolean `approve` and a
string `reason`, with `concerns` kept only when it parsed as an all-strings
array; and it looks only at the slice of the trimmed input from the first
`\x7b` to the last `\x7d` — feeding that slice back in reproduces the same
verdict. -/
theorem c9_safe_parse :
    (∀ (s : String) (v : P4.ClaudeVerdict),
      P4.safeParseClaudeJson s = some v →
      ∃ ms, Js.parse (braceSliceOf s) = some (Js.Json.obj ms) ∧
        Js.objGet ms "approve" = some (Js.Json.bool v.approve) ∧
        Js.objGet ms "reason" = some (Js.Json.str v.reason) ∧
        (∀ cs : List String, v.concerns = some cs →
          Js.objGet ms "concerns" = some (Js.Json.arr (cs.map Js.Json.str))) ∧
        (v.concerns = none →
          ∀ cs : List String,
            Js.objGet ms "concerns" ≠ some (Js.Json.arr (cs.map Js.Json.str)))) ∧
    (∀ s : String, P4.safeParseClaudeJson (braceSliceOf s) =
      P4.safeParseClaudeJson s) := by
  constructor
  · intro s v h
    simp only [P4.safeParseClaudeJson] at h
    split at h
    · rename_i ms heq
      have hp2 : Js.parse (braceSliceOf s) = some (Js.Json.obj ms) := heq
      split at h
      · rename_i b r ha hr
        split at h
        · rename_i xs hco
          rcases hse : Js.strElems? xs with _ | cs0
          · rw [hse] at h
            injection h with h3
            subst h3
            refine ⟨ms, hp2, ha, hr, ?_, ?_⟩
            · intro cs hcs
              exact absurd (show (none : Option (List String)) = some cs from hcs)
                (by simp)
            · intro _ cs hcontra
              have h4 := hco.symm.trans hcontra
              have hxs : Js.Json.arr xs = Js.Json.arr (cs.map Js.Json.str) := by
                injection h4
              have hxs2 : xs = cs.map Js.Json.str := by
                injection hxs
              rw [hxs2, strElems?_map_str cs] at hse
              exact absurd hse (by simp)
          · rw [hse] at h
            injection h with h3
            subst h3
            refine ⟨ms, hp2, ha, hr, ?_, ?_⟩
            · intro cs hcs
              have h5 : (some cs0 : Option (List String)) = some cs := hcs
              injection h5 with h6
              rw [hco, strElems?_eq_some hse, h6]
            · intro hnone
              exact absurd (show (some cs0 : Option (List String)) = none from hnone)
                (by simp)
        · rename_i hno
          injection h with h3
          subst h3
          refine ⟨ms, hp2, ha, hr, ?_, ?_⟩
          · intro cs hcs
            exact absurd (show (none : Option (List String)) = some cs from hcs)
              (by simp)
          · intro _ cs hcontra
            exact absurd hcontra (hno (cs.map Js.Json.str))
      · simp at h
    · simp at h
  · intro s
    have key : P4.braceSlice (jsTrimList (P4.braceSlice (jsTrimList s.toList))) =
        P4.braceSlice (jsTrimList s.toList) := by
      set cs := jsTrimList s.toList with hcs
      have hidem : jsTrimList cs = cs := by
        rw [hcs]
        exact jsTrimList_idem _
      rcases hi : firstIdxOf? '{' cs with _ | i
      · have hbs : P4.braceSlice cs = cs := by
          unfold P4.braceSlice
          rw [hi]
        rw [hbs, hidem, hbs]
      · rcases hj : lastIdxOf? cs '}' with _ | j
        · have hbs : P4.braceSlice cs = cs := by
            unfold P4.braceSlice
            rw [hi, hj]
          rw [hbs, hidem, hbs]
        · by_cases hij : i < j
          · obtain ⟨mid, hmid⟩ := braceSlice_shape cs i j hi hj hij
            have hbs : P4.braceSlice cs = '{' :: mid ++ ['}'] := by
              unfold P4.braceSlice
              rw [hi, hj]
              exact hmid
            rw [hbs]
            have htrim : jsTrimList ('{' :: mid ++ ['}']) = '{' :: mid ++ ['}'] := by
              apply jsTrimList_eq_self
              · intro c hcb
                have h2 : some '{' = some c := hcb
                injection h2 with h3
                rw [← h3]
                rfl
              · intro c hcb
                have h2 : (('{' :: mid) ++ ['}']).getLast? = some c := hcb
                rw [List.getLast?_concat] at h2
                injection h2 with h3
                rw [← h3]
                rfl
            rw [htrim]
            have h1 : firstIdxOf? '{' ('{' :: mid ++ ['}']) = some 0 := by
              simp [firstIdxOf?]
            have h2 : lastIdxOf? ('{' :: mid ++ ['}']) '}' = some (mid.length + 1) := by
              have h3 := lastIdxOf?_concat_last ('{' :: mid) '}'
              simpa using h3
            unfold P4.braceSlice
            rw [h1, h2]
            show (('{' :: mid ++ ['}']).drop 0).take (mid.length + 1 + 1 - 0) =
              '{' :: mid ++ ['}']
            have hlen : mid.length + 1 + 1 - 0 = ('{' :: mid ++ ['}']).length := by
              simp
            rw [List.drop_zero, hlen, List.take_length]
          · have hgi := firstIdxOf?_get _ _ _ hi
            have hgj := lastIdxOf?_get _ _ _ hj
            have hne : i ≠ j := by
              intro he
              subst he
              rw [hgi] at hgj
              injection hgj with hx
              exact absurd hx (by decide)
            have hji : j < i := by omega
            have hsl : P4.braceSlice cs = [] := by
              unfold P4.braceSlice
              rw [hi, hj]
              show (cs.drop i).take (j + 1 - i) = []
              have h0 : j + 1 - i = 0 := by omega
              rw [h0]
              exact List.take_zero _
            rw [hsl]
            have h2 : jsTrimList ([] : List Char) = [] := rfl
            rw [h2]
            rfl
    simp only [P4.safeParseClaudeJson]
    rw [show (braceSliceOf s).toList = P4.braceSlice (jsTrimList s.toList) from rfl, key]

/-- Witness for C9: a prose-wrapped verdict parses to `approve = true`,
`reason = "fine"`, empty concerns, and re-parsing its brace slice gives the
same verdict. -/
theorem c9_witness :
    (∃ ms, Js.parse (braceSliceOf fixProseReply) = some (Js.Json.obj ms) ∧
      Js.objGet ms "approve" = some (Js.Json.bool true) ∧
      Js.objGet ms "reason" = some (Js.Json.str "fine") ∧
      (∀ cs : List String, (some ([] : List String) : Option (List String)) = some cs →
        Js.objGet ms "concerns" = some (Js.Json.arr (cs.map Js.Json.str))) ∧
      ((some ([] : List String) : Option (List String)) = none →
        ∀ cs : List String,
          Js.objGet ms "concerns" ≠ some (Js.Json.arr (cs.map Js.Json.str)))) ∧
    P4.safeParseClaudeJson (braceSliceOf fixProseReply) =
      P4.safeParseClaudeJson fixProseReply :=
  ⟨c9_safe_parse.1 fixProseReply
      { approve := true, reason := "fine", concerns := some [] } (by rfl),
   c9_safe_parse.2 fixProseReply⟩

end Arena
